import Mathlib

/-!
Verification of the PersonsGameCommon shared game logic: a shallow embedding of
the inventory engine (`src/inventory.ts`), the harvest spawner
(`src/resources.ts`), the cell helpers (`src/cell.ts`) and the cell planner
(`src/npc.ts`, second `CellController`), together with theorems settling the
specification claims. JavaScript numbers are modeled as rationals (`ℚ`) or
naturals/integers where the code only ever holds such values; ISO-8601 date
strings are modeled by their integer millisecond value, since the code always
round-trips them through `Date.parse`/`toISOString`; thrown exceptions are
modeled with `Except String`, paired with the object state at throw time where
the mutated receiver survives the throw.
-/

set_option maxHeartbeats 1600000

namespace PersonsGame

/-- Object type catalog, `ENetworkObjectType` from `src/types/GameTypes.ts`. -/
inductive ENetworkObjectType where
  | PERSON
  | CHAIR
  | TABLE
  | BOX
  | CAR
  | VENDING_MACHINE
  | TREE
  | STICK
  | WOOD
  | AXE
  | CHAINSAW
  | POND
  | MUD
  | CLAY
  | REED
  | WHEAT
  | CORN
  | RICE
  | HOE
  | SEED
  | CHICKEN
  | COW
  | PIG
  | FISH
  | FLOUR
  | MEAT
  | ROCK
  | STONE
  | IRON
  | COAL
  | PUMP_JACK
  | OIL
  | GAS_WELL
  | PROPANE
  | WATTLE_WALL
  deriving DecidableEq, Repr

/-- `getMaxStackSize` from `src/types/GameTypes.ts` (lines 82-96): the
`stackSizes` table maps STICK to 10 and WATTLE_WALL to 4, all other types
default to 1. -/
def getMaxStackSize : ENetworkObjectType → Nat
  | .STICK => 10
  | .WATTLE_WALL => 4
  | _ => 1

/-- `IObjectHealth` from `src/types/GameTypes.ts`. -/
structure IObjectHealth where
  rate : Int
  max : Int
  value : Int
  deriving DecidableEq, Repr

/-- A plain position, `IObject` from `src/types/GameTypes.ts`. -/
structure IObject where
  x : ℚ
  y : ℚ
  deriving DecidableEq, Repr

/-- A `Partial<INetworkObject>` patch as used in object state timelines.
Each field is optional; a field that is present overwrites the target field
when the patch is applied. The `state` field that a full-object spread patch
would carry is omitted: none of the verified claims reads a state timeline
nested inside a patch, and including it would make the object type
recursively nested. -/
structure INetworkObjectPartial where
  id : Option String := none
  x : Option ℚ := none
  y : Option ℚ := none
  objectType : Option ENetworkObjectType := none
  amount : Option Nat := none
  exist : Option Bool := none
  isInInventory : Option Bool := none
  grabbedByPersonId : Option (Option String) := none
  grabbedByNpcId : Option (Option String) := none
  insideStockpile : Option (Option String) := none
  lastUpdate : Option Int := none
  health : Option IObjectHealth := none
  cell : Option String := none
  version : Option Nat := none
  deriving DecidableEq, Repr

/-- `INetworkObjectState<INetworkObject>`: a timestamped patch. -/
structure INetworkObjectState where
  time : Int
  state : INetworkObjectPartial
  deriving DecidableEq, Repr

/-- `INetworkObject` from `src/types/GameTypes.ts` (with the newer fields
`insideStockpile`, `exist`, `state`, `cell`, `version` that `src/npc.ts` and
`src/resources.ts` use). -/
structure INetworkObject where
  id : String
  x : ℚ
  y : ℚ
  objectType : ENetworkObjectType
  amount : Nat
  exist : Bool := true
  isInInventory : Bool := false
  grabbedByPersonId : Option String := none
  grabbedByNpcId : Option String := none
  insideStockpile : Option String := none
  lastUpdate : Int := 0
  health : IObjectHealth := ⟨0, 1, 1⟩
  state : List INetworkObjectState := []
  cell : String := ""
  version : Nat := 0
  deriving DecidableEq, Repr

/-! ### The seedrandom alea PRNG model

The `seedrandom` library's `alea` generator is a deterministic stream cipher
over floating point state. We model it abstractly but faithfully to its
contract: a seed determines an infinite stream of `quick()` doubles (uniform
values in [0,1), modeled as rationals) and of `int32()` values; the mutable
generator is that stream plus the number of draws already made; `state()`
returns a snapshot that, passed back via `{ state }`, resumes the stream at
exactly the same point (the snapshot is modeled as the generator itself). -/

/-- The value streams of one alea instance, indexed by draw count. -/
structure AleaStream where
  quickVal : Nat → ℚ
  int32Val : Nat → Int

/-- A live alea generator: its stream and how many draws were made. -/
structure AleaPrng where
  stream : AleaStream
  pos : Nat

/-- `rng.quick()`: one uniform double in [0,1), advancing the state. -/
def AleaPrng.quick (r : AleaPrng) : ℚ × AleaPrng :=
  (r.stream.quickVal r.pos, ⟨r.stream, r.pos + 1⟩)

/-- `rng.int32()`: one 32-bit integer draw, advancing the state. -/
def AleaPrng.int32 (r : AleaPrng) : Int × AleaPrng :=
  (r.stream.int32Val r.pos, ⟨r.stream, r.pos + 1⟩)

/-- `rng.state()`: snapshot of the whole generator state. -/
def AleaPrng.state (r : AleaPrng) : AleaPrng := r

/-- The `craftingState` / `spawnState` field of holders and resources: the
literal `true` (meaning: seed a fresh generator from the seed string) or a
saved snapshot to resume from. -/
inductive SeedState where
  | fresh
  | saved (snapshot : AleaPrng)

/-- `seedrandom.alea(seed, { state })`: fresh streams come from the seeding
`algorithm` (the abstract map from seed strings to alea streams); a saved
snapshot is resumed as-is, ignoring the seed argument. -/
def seedrandomAlea (algorithm : String → AleaStream) (seed : String) :
    SeedState → AleaPrng
  | .fresh => ⟨algorithm seed, 0⟩
  | .saved snapshot => snapshot

/-! ### `src/cell.ts` -/

/-- `cellSize` from `src/cell.ts`. -/
def cellSize : ℚ := 2000

/-- `INetworkObjectCellPosition`. -/
structure INetworkObjectCellPosition where
  x : Int
  y : Int
  deriving DecidableEq, Repr

/-- `getNetworkObjectWorldCellPosition` from `src/cell.ts`. -/
def getNetworkObjectWorldCellPosition (networkObject : IObject) :
    INetworkObjectCellPosition :=
  { x := ⌊networkObject.x / cellSize⌋
    y := ⌊networkObject.y / cellSize⌋ }

/-- `networkObjectCellPositionToCellString` from `src/cell.ts`. -/
def networkObjectCellPositionToCellString (position : INetworkObjectCellPosition) :
    String :=
  "cell:" ++ toString position.x ++ "," ++ toString position.y

/-- `getNetworkObjectCellString` from `src/cell.ts`. -/
def getNetworkObjectCellString (networkObject : IObject) : String :=
  networkObjectCellPositionToCellString
    (getNetworkObjectWorldCellPosition networkObject)

/-! ### Inventory engine types (`src/types/GameTypes.ts`, `src/inventory.ts`) -/

/-- `IPersonsInventory`. -/
structure IPersonsInventory where
  rows : Nat
  columns : Nat
  slots : List INetworkObject
  deriving DecidableEq, Repr

/-- `ICraftingRecipeItem`. -/
structure ICraftingRecipeItem where
  item : ENetworkObjectType
  quantity : Nat
  deriving DecidableEq, Repr

/-- `ICraftingRecipe`. The `amount` field comes from the newer
`GameTypes` revision used by `src/npc.ts` (`recipe.amount`);
`src/inventory.ts` never reads it. -/
structure ICraftingRecipe where
  product : ENetworkObjectType
  amount : Nat := 1
  items : List ICraftingRecipeItem
  byHand : Bool
  deriving DecidableEq, Repr

/-- A path point `INpcPathPoint` of an NPC. -/
structure INpcPathPoint where
  time : Int
  location : IObject
  deriving DecidableEq, Repr

/-- An inventory holder (`IPerson | INpc | IStockpile`) as consumed by
`InventoryController`. The constructor discriminates NPCs from persons by the
truthiness of the `path` property (`!!(inventoryHolder as INpc).path`); a
person or stockpile has no `path` property at all (`none` here), while an NPC
always has one (even an empty array is truthy in JavaScript). -/
structure IInventoryHolder where
  id : String
  x : ℚ
  y : ℚ
  inventory : IPersonsInventory
  craftingSeed : String
  craftingState : SeedState
  path : Option (List INpcPathPoint)

deriving instance DecidableEq for Except

/-- `IInventoryTransaction` from `src/inventory.ts`. -/
structure IInventoryTransaction where
  updatedItem : Option INetworkObject
  stackableSlots : List INetworkObject
  deletedSlots : List String
  modifiedSlots : List INetworkObject
  deriving DecidableEq, Repr

/-- `ICraftingTransaction` from `src/inventory.ts`. -/
structure ICraftingTransaction where
  newSlots : List INetworkObject
  deletedSlots : List String
  modifiedSlots : List INetworkObject
  deriving DecidableEq, Repr

/-- The `InventoryController` instance state from `src/inventory.ts`. -/
structure InventoryController where
  numRows : Nat
  numColumns : Nat
  numMaxSlots : Nat
  slots : List INetworkObject
  isPerson : Bool
  isNpc : Bool
  inventoryHolder : IInventoryHolder
  rng : AleaPrng

/-- The `InventoryController` constructor. `algorithm` is the abstract alea
seeding function (see `seedrandomAlea`). The seed argument mirrors
`inventoryHolder.craftingState === true ? inventoryHolder.craftingSeed : ''`. -/
def mkInventoryController (algorithm : String → AleaStream)
    (inventoryHolder : IInventoryHolder) : InventoryController :=
  let isNpc := inventoryHolder.path.isSome
  { numRows := inventoryHolder.inventory.rows
    numColumns := inventoryHolder.inventory.columns
    numMaxSlots := inventoryHolder.inventory.rows * inventoryHolder.inventory.columns
    slots := inventoryHolder.inventory.slots
    isNpc := isNpc
    isPerson := !isNpc
    inventoryHolder := inventoryHolder
    rng := seedrandomAlea algorithm
      (match inventoryHolder.craftingState with
        | .fresh => inventoryHolder.craftingSeed
        | .saved _ => "")
      inventoryHolder.craftingState }

namespace InventoryController

/-- The stackable-slot predicate of `pickUpItemInternal`: same object type and
the combined amount still fits under the stack limit. -/
def stackableWith (itemToPickUp slot : INetworkObject) : Bool :=
  slot.objectType == itemToPickUp.objectType &&
    decide (slot.amount + itemToPickUp.amount ≤ getMaxStackSize slot.objectType)

/-- `pickUpItemInternal` from `src/inventory.ts` (lines 129-205). Returns the
transaction (or the thrown error) together with the controller state after the
call; the controller is unchanged when the error is thrown. The explicit
`slots` argument mirrors the optional parameter defaulting to `this.slots`;
`now` is the wall clock read by `new Date().toISOString()`. -/
def pickUpItemInternal (c : InventoryController) (itemToPickUp : INetworkObject)
    (slots : List INetworkObject) (now : Int) :
    Except String IInventoryTransaction × InventoryController :=
  let stackableSlot := slots.find? (stackableWith itemToPickUp)
  let emptySlot : Bool := decide (slots.length < c.numMaxSlots)
  let roomForOneMoreItem : Bool := stackableSlot.isSome || emptySlot
  if roomForOneMoreItem then
    let slotsWithoutItemToPickup := slots.filter (fun slot => slot.id != itemToPickUp.id)
    match stackableSlot with
    | some s =>
      let newStackableSlot : INetworkObject :=
        { s with
          amount := s.amount + itemToPickUp.amount
          isInInventory := true
          grabbedByPersonId := if c.isPerson then some c.inventoryHolder.id else none
          grabbedByNpcId := if c.isNpc then some c.inventoryHolder.id else none
          lastUpdate := now }
      let newSlots := slotsWithoutItemToPickup.foldl
        (fun acc slot =>
          if slot.id == s.id then acc ++ [newStackableSlot] else acc ++ [slot]) []
      (.ok ⟨none, [newStackableSlot], [], []⟩, { c with slots := newSlots })
    | none =>
      let updatedItemToPickUp : INetworkObject :=
        { itemToPickUp with
          isInInventory := true
          grabbedByPersonId := if c.isPerson then some c.inventoryHolder.id else none
          grabbedByNpcId := if c.isNpc then some c.inventoryHolder.id else none
          lastUpdate := now }
      (.ok ⟨some updatedItemToPickUp, [], [], []⟩,
        { c with slots := slotsWithoutItemToPickup ++ [updatedItemToPickUp] })
  else
    (.error "Not enough room for item", c)

/-- `pickUpItem`: the public wrapper over `pickUpItemInternal`. -/
def pickUpItem (c : InventoryController) (itemToPickUp : INetworkObject)
    (now : Int) : Except String IInventoryTransaction × InventoryController :=
  pickUpItemInternal c itemToPickUp c.slots now

/-- `dropItem` from `src/inventory.ts`. -/
def dropItem (c : InventoryController) (itemToDrop : INetworkObject) (now : Int) :
    Except String IInventoryTransaction × InventoryController :=
  let slotsWithoutItem := c.slots.filter (fun slot => slot.id != itemToDrop.id)
  let itemToDropState : INetworkObject :=
    { itemToDrop with
      isInInventory := false
      grabbedByNpcId := none
      grabbedByPersonId := none
      lastUpdate := now }
  (.ok ⟨some itemToDropState, [], [], []⟩, { c with slots := slotsWithoutItem })

/-- `getInventory`. -/
def getInventory (c : InventoryController) : IPersonsInventory :=
  ⟨c.numRows, c.numColumns, c.slots⟩

/-- `internalRemoveCraftingRecipeItem` from `src/inventory.ts` (lines
301-341). The source walks the copied slot array, mutating matching slot
objects in place and collecting aliased references in `modifiedSlots`; we
track the modified slot ids in push order and let the caller materialize the
final slot objects, which coincides with the aliasing semantics whenever slot
ids are unique. The fold state is (slots walked so far, modified ids, recipe
amount still needed). -/
def removeSlotStep (recipeItem : ICraftingRecipeItem) (now : Int)
    (st : List INetworkObject × List String × Nat) (slot : INetworkObject) :
    List INetworkObject × List String × Nat :=
  let done := st.1
  let ids := st.2.1
  let left := st.2.2
  if slot.objectType == recipeItem.item then
    let amountToUse := min slot.amount left
    let slot' := { slot with amount := slot.amount - amountToUse, lastUpdate := now }
    (done ++ [slot'],
      if ids.contains slot.id then ids else ids ++ [slot.id],
      left - amountToUse)
  else (done ++ [slot], ids, left)

/-- The body of `internalRemoveCraftingRecipeItem`: fold the walk over the
copied slots, then fail if the recipe quantity was not fully covered. -/
def internalRemoveCraftingRecipeItem (recipeItem : ICraftingRecipeItem)
    (copyOfSlots : List INetworkObject) (modifiedIds : List String) (now : Int) :
    Except String (List INetworkObject × List String) :=
  let step := copyOfSlots.foldl (removeSlotStep recipeItem now)
    ([], modifiedIds, recipeItem.quantity)
  if step.2.2 > 0 then .error "Not enough materials for crafting"
  else .ok (step.1, step.2.1)

/-- The `for (const recipeItem of recipe.items)` loop of
`getSlotsAfterCraftingMaterials`, threading the copied slots and the modified
ids; a throw from `internalRemoveCraftingRecipeItem` aborts the loop. -/
def removeAllRecipeItems :
    List ICraftingRecipeItem → List INetworkObject → List String → Int →
    Except String (List INetworkObject × List String)
  | [], slots, ids, _ => .ok (slots, ids)
  | recipeItem :: rest, slots, ids, now =>
    match internalRemoveCraftingRecipeItem recipeItem slots ids now with
    | .error e => .error e
    | .ok (s', i') => removeAllRecipeItems rest s' i' now

/-- `getSlotsAfterCraftingMaterials` from `src/inventory.ts` (lines 375-398):
subtract all recipe inputs from a copy of the slots, then classify surviving,
deleted and modified slots. -/
def getSlotsAfterCraftingMaterials (c : InventoryController)
    (recipe : ICraftingRecipe) (now : Int) : Except String ICraftingTransaction :=
  match removeAllRecipeItems recipe.items c.slots [] now with
  | .error e => .error e
  | .ok (copyOfSlots, modifiedIds) =>
    .ok
      { newSlots := copyOfSlots.filter (fun slot => decide (slot.amount > 0))
        deletedSlots :=
          (copyOfSlots.filter (fun slot => slot.amount == 0)).map (fun slot => slot.id)
        modifiedSlots :=
          (modifiedIds.filterMap (fun i => copyOfSlots.find? (fun s => s.id == i))).filter
            (fun slot => decide (slot.amount > 0)) }

/-- `newItemId`: `` `${holder.id}-${rng.int32()}` ``, advancing the crafting RNG. -/
def newItemId (c : InventoryController) : String × InventoryController :=
  let (n, rng') := c.rng.int32
  (c.inventoryHolder.id ++ "-" ++ toString n, { c with rng := rng' })

/-- `newCraftingItemId`: `` `crafted-item-${newItemId()}` ``. -/
def newCraftingItemId (c : InventoryController) : String × InventoryController :=
  let (s, c') := newItemId c
  ("crafted-item-" ++ s, c')

/-- `createItemType` from `src/inventory.ts`: a fresh item of the given type
at the holder position, owned by the holder. -/
def createItemType (c : InventoryController) (objectType : ENetworkObjectType)
    (now : Int) : INetworkObject × InventoryController :=
  let (newId, c') := newCraftingItemId c
  ({ id := newId
     x := c.inventoryHolder.x
     y := c.inventoryHolder.y
     objectType := objectType
     amount := 1
     isInInventory := true
     grabbedByNpcId := if c.isNpc then some c.inventoryHolder.id else none
     grabbedByPersonId := if c.isPerson then some c.inventoryHolder.id else none
     lastUpdate := now
     health := ⟨0, 1, 1⟩ }, c')

/-- `craftItem` from `src/inventory.ts` (lines 447-460): subtract the recipe
materials from a copy of the slots, then create the product item (advancing
the crafting RNG) and pick it up into the post-crafting slots. A throw in the
materials stage leaves the controller untouched; a throw in the pickup stage
leaves the slots untouched but the RNG already advanced, matching the order
of effects in the source. -/
def craftItem (c : InventoryController) (recipe : ICraftingRecipe) (now : Int) :
    Except String IInventoryTransaction × InventoryController :=
  match getSlotsAfterCraftingMaterials c recipe now with
  | .error e => (.error e, c)
  | .ok ct =>
    let (recipeItem, c1) := createItemType c recipe.product now
    match pickUpItemInternal c1 recipeItem ct.newSlots now with
    | (.error e, c2) => (.error e, c2)
    | (.ok t, c2) =>
      (.ok { t with deletedSlots := ct.deletedSlots, modifiedSlots := ct.modifiedSlots },
        c2)

/-- `addItem`: alias for picking the item up into the current slots. -/
def addItem (c : InventoryController) (item : INetworkObject) (now : Int) :
    Except String IInventoryTransaction × InventoryController :=
  pickUpItemInternal c item c.slots now

end InventoryController

/-! ### `src/resources.ts` -/

/-- `IResourceSpawn`: one weighted spawn entry of a resource node. -/
structure IResourceSpawn where
  type : ENetworkObjectType
  probability : ℚ
  spawnTime : ℚ
  deriving DecidableEq, Repr

/-- A `Partial<IResource>` patch: the fields the planner's resource events
actually carry (`spawnState`, `depleted`, `readyTime`). -/
structure IResourcePartial where
  spawnState : Option SeedState := none
  depleted : Option Bool := none
  readyTime : Option Int := none

/-- `INetworkObjectState<IResource>`: a timestamped resource patch. -/
structure IResourceState where
  time : Int
  state : IResourcePartial

/-- `IResource`: a harvestable resource node. -/
structure IResource where
  id : String
  x : ℚ
  y : ℚ
  objectType : ENetworkObjectType
  spawnSeed : String
  spawnState : SeedState
  depleted : Bool
  readyTime : Int
  spawns : List IResourceSpawn
  state : List IResourceState := []
  lastUpdate : Int := 0

/-- `IApiPersonsResourceHarvestPost`. -/
structure IApiPersonsResourceHarvestPost where
  resourceId : String
  deriving DecidableEq, Repr

/-- `IHarvestResourceSpawn`: the result of `HarvestResourceController.spawn`. -/
structure IHarvestResourceSpawn where
  spawn : INetworkObject
  respawnTime : Int
  deriving DecidableEq, Repr

/-- The `HarvestResourceController` instance state from `src/resources.ts`. -/
structure HarvestResourceController where
  postData : IApiPersonsResourceHarvestPost
  rng : AleaPrng
  sumCumulativeProbability : ℚ
  spawnsCumulativeProbability : List IResourceSpawn
  resource : IResource

/-- The RNG the `HarvestResourceController` constructor builds:
`seedrandom.alea(resource.spawnState === true ? resource.spawnSeed : '',
{ state: resource.spawnState })`. -/
def HarvestResourceController.initialRng (algorithm : String → AleaStream)
    (resource : IResource) : AleaPrng :=
  seedrandomAlea algorithm
    (match resource.spawnState with
      | .fresh => resource.spawnSeed
      | .saved _ => "")
    resource.spawnState

/-- The `HarvestResourceController` constructor (`src/resources.ts` lines
52-85): seed the RNG from `spawnState`, reject an empty spawn list, total the
probabilities, and build the cumulative table: entry `index` keeps its spawn
but its `probability` field is replaced by the sum of the weights strictly
below `index`; the table is then reversed. -/
def HarvestResourceController.make (algorithm : String → AleaStream)
    (resource : IResource) : Except String HarvestResourceController :=
  let rng := HarvestResourceController.initialRng algorithm resource
  if resource.spawns.length = 0 then .error "Resource with an empty spawn list"
  else
    .ok
      { postData := ⟨resource.id⟩
        rng := rng
        sumCumulativeProbability :=
          resource.spawns.foldl (fun acc s => acc + s.probability) 0
        spawnsCumulativeProbability :=
          (resource.spawns.mapIdx (fun index s =>
            { s with
              probability :=
                (resource.spawns.take index).foldl
                  (fun acc s1 => acc + s1.probability) 0 })).reverse
        resource := resource }

/-- `HarvestResourceController.spawn` (`src/resources.ts` lines 90-130).
Draw order matches the source: one `quick` for the weighted selection, two
`quick` for the position jitter, one `int32` for the item id, one `quick` for
the respawn delay. When the `find` over the reversed cumulative table does
not fire, the source casts `undefined` to `IResourceSpawn` and the
`spawn.type` access throws a `TypeError`; that crash is modeled as `none`. -/
def HarvestResourceController.spawn (c : HarvestResourceController) (now : Int) :
    Option (IHarvestResourceSpawn × HarvestResourceController) :=
  let (q1, rng1) := c.rng.quick
  let cumulativeProbability := q1 * c.sumCumulativeProbability
  match c.spawnsCumulativeProbability.find?
      (fun s => decide (s.probability < cumulativeProbability)) with
  | none => none
  | some sp =>
    let (q2, rng2) := rng1.quick
    let (q3, rng3) := rng2.quick
    let spawnPosition : IObject :=
      ⟨c.resource.x + ((⌊q2 * 200⌋ : Int) : ℚ) - 100,
        c.resource.y + ((⌊q3 * 200⌋ : Int) : ℚ) - 100⟩
    let (n, rng4) := rng3.int32
    let (q5, rng5) := rng4.quick
    let spawnItem : INetworkObject :=
      { x := spawnPosition.x
        y := spawnPosition.y
        objectType := sp.type
        lastUpdate := now
        health := ⟨0, 1, 1⟩
        id := "object-" ++ toString n
        grabbedByPersonId := none
        grabbedByNpcId := none
        insideStockpile := none
        isInInventory := false
        amount := 1
        exist := true
        state := []
        cell := getNetworkObjectCellString spawnPosition
        version := 0 }
    let respawnTime : Int := ⌈q5 * sp.spawnTime + sp.spawnTime * (1 / 2 : ℚ)⌉
    some (⟨spawnItem, respawnTime⟩, { c with rng := rng5 })

/-- `saveState`: snapshot of the current RNG. -/
def HarvestResourceController.saveState (c : HarvestResourceController) :
    AleaPrng :=
  c.rng.state

/-- `getPostData`. -/
def HarvestResourceController.getPostData (c : HarvestResourceController) :
    IApiPersonsResourceHarvestPost :=
  c.postData

/-- Iterated `spawn()` calls, one wall-clock reading per call; a crash
(`none` from `spawn`) truncates the run and is recorded as a `none` final
controller. -/
def HarvestResourceController.spawnN :
    HarvestResourceController → List Int →
    List IHarvestResourceSpawn × Option HarvestResourceController
  | c, [] => ([], some c)
  | c, now :: rest =>
    match c.spawn now with
    | none => ([], none)
    | some (r, c') =>
      let (rs, oc) := HarvestResourceController.spawnN c' rest
      (r :: rs, oc)

/-- Erase the single wall-clock field of a spawn result. -/
def IHarvestResourceSpawn.eraseLastUpdate (r : IHarvestResourceSpawn) :
    IHarvestResourceSpawn :=
  { r with spawn := { r.spawn with lastUpdate := 0 } }

/-! ### The planner's craft-product selection (`src/npc.ts` line 2036) -/

/-- The crafting product selection of `CellController.handleCraftJob`:
`products[Math.floor(Math.random() * products.length)]`. `mathRandom` is the
value returned by the global, unseeded `Math.random()` call — it is not part
of the planner input. -/
def handleCraftJobProductChoice (products : List ENetworkObjectType)
    (mathRandom : ℚ) : Option ENetworkObjectType :=
  products.get? (⌊mathRandom * products.length⌋.toNat)

/-- Modelled from the spec: the `listOfRecipes` revision consumed by
`CellController.handleCraftJob` (with the `amount` field) is not part of this
snapshot — only the older `src/types/GameTypes.ts` copy without `amount` is.
Spec §6: "Recipes. A static list; each recipe = `{product, amount, items:
[{item, quantity}], byHand: bool}`. The canonical recipe used by tests:
`WATTLE_WALL ← 10× STICK, byHand=true`." -/
def listOfRecipes : List ICraftingRecipe :=
  [{ product := .WATTLE_WALL
     amount := 1
     items := [{ item := .STICK, quantity := 10 }]
     byHand := true }]

/-! ### `src/npc.ts` : planner data model (second `CellController`, line 911 on) -/

/-- JavaScript `Array.prototype.findIndex`, as an `Option Nat` (`none` for
-1). -/
def jsFindIndex (p : α → Bool) : List α → Option Nat
  | [] => none
  | a :: l => if p a then some 0 else (jsFindIndex p l).map (fun i => i + 1)

/-- ECMAScript `ToInteger` (used by `new Date(number)`): truncation toward
zero. Path point times produced by the planner pass through
`new Date(...).toISOString()`. -/
def jsToInteger (q : ℚ) : Int :=
  if 0 ≤ q then ⌊q⌋ else ⌈q⌉

/-- `IInventoryState`: one timestamped inventory delta. -/
structure IInventoryState where
  time : Int
  add : List INetworkObject
  remove : List String
  modified : List INetworkObject
  rowsUpdate : Option Nat := none
  columnsUpdate : Option Nat := none
  deriving DecidableEq, Repr

/-- `ENpcJobType`. -/
inductive ENpcJobType where
  | GATHER
  | CRAFT
  | HAUL
  deriving DecidableEq, Repr

/-- An NPC job (`INpcJob` / `INpcJobGathering` / `INpcJobCrafting`): a JS
object with a `type` tag and the variant's payload fields (absent fields read
as empty). -/
structure INpcJob where
  type : ENpcJobType
  resources : List ENetworkObjectType := []
  products : List ENetworkObjectType := []
  deriving DecidableEq, Repr

/-- `INpc` restricted to the fields the planner reads or writes. -/
structure INpc where
  id : String
  x : ℚ
  y : ℚ
  path : List INpcPathPoint
  readyTime : Int
  lastUpdate : Int
  inventory : IPersonsInventory
  inventoryState : List IInventoryState
  job : INpcJob
  craftingSeed : String
  craftingState : SeedState

/-- `IStockpile` restricted to the fields the planner reads or writes. -/
structure IStockpile where
  id : String
  x : ℚ
  y : ℚ
  inventory : IPersonsInventory
  inventoryState : List IInventoryState
  craftingSeed : String
  craftingState : SeedState
  lastUpdate : Int

/-- `IHouse` restricted to the fields the planner reads. -/
structure IHouse where
  id : String
  npcId : String
  x : ℚ
  y : ℚ
  deriving DecidableEq, Repr

/-- The `InventoryController` view of an NPC; an NPC always has a `path`
property (a JS array is truthy even when empty), so the controller classifies
it as an NPC. -/
def INpc.toInventoryHolder (npc : INpc) : IInventoryHolder :=
  { id := npc.id
    x := npc.x
    y := npc.y
    inventory := npc.inventory
    craftingSeed := npc.craftingSeed
    craftingState := npc.craftingState
    path := some npc.path }

/-- The `InventoryController` view of a stockpile; a stockpile has no `path`
property, so the controller classifies it as a person. -/
def IStockpile.toInventoryHolder (s : IStockpile) : IInventoryHolder :=
  { id := s.id
    x := s.x
    y := s.y
    inventory := s.inventory
    craftingSeed := s.craftingSeed
    craftingState := s.craftingState
    path := none }

/-- Apply one `Partial<INetworkObject>` patch (`{...acc, ...state.state}`). -/
def applyObjectPartial (acc : INetworkObject) (p : INetworkObjectPartial) :
    INetworkObject :=
  { id := p.id.getD acc.id
    x := p.x.getD acc.x
    y := p.y.getD acc.y
    objectType := p.objectType.getD acc.objectType
    amount := p.amount.getD acc.amount
    exist := p.exist.getD acc.exist
    isInInventory := p.isInInventory.getD acc.isInInventory
    grabbedByPersonId := p.grabbedByPersonId.getD acc.grabbedByPersonId
    grabbedByNpcId := p.grabbedByNpcId.getD acc.grabbedByNpcId
    insideStockpile := p.insideStockpile.getD acc.insideStockpile
    lastUpdate := p.lastUpdate.getD acc.lastUpdate
    health := p.health.getD acc.health
    state := acc.state
    cell := p.cell.getD acc.cell
    version := p.version.getD acc.version }

/-- Apply one `Partial<IResource>` patch. -/
def applyResourcePartial (acc : IResource) (p : IResourcePartial) : IResource :=
  { acc with
    spawnState := p.spawnState.getD acc.spawnState
    depleted := p.depleted.getD acc.depleted
    readyTime := p.readyTime.getD acc.readyTime }

/-- `applyStateToNetworkObject` (`src/npc.ts` line 868): fold every patch
whose time has passed over the object; the `state` list itself is preserved. -/
def applyStateToNetworkObject (networkObject : INetworkObject) (now : Int) :
    INetworkObject :=
  networkObject.state.foldl
    (fun acc st => if now ≥ st.time then applyObjectPartial acc st.state else acc)
    networkObject

/-- `applyStateToResource` (`src/npc.ts` line 893): like
`applyStateToNetworkObject` but the `state` list is cleared afterwards. -/
def applyStateToResource (resource : IResource) (now : Int) : IResource :=
  { resource.state.foldl
      (fun acc st => if now ≥ st.time then applyResourcePartial acc st.state else acc)
      resource with
    state := [] }

/-- The slot rewrite of `internalApplyOneInventoryState` (`src/npc.ts` line
777): drop removed and re-added slots, substitute modified slots, then append
the added slots; `rows`/`columns` are replaced when the delta carries them. -/
def applyInventoryStateDelta (inv : IPersonsInventory)
    (inventoryState : IInventoryState) : IPersonsInventory :=
  { rows := inventoryState.rowsUpdate.getD inv.rows
    columns := inventoryState.columnsUpdate.getD inv.columns
    slots :=
      ((inv.slots.filter (fun slot =>
          !(inventoryState.remove.contains slot.id) &&
            !(inventoryState.add.any (fun s => s.id == slot.id)))).map
        (fun slot =>
          match inventoryState.modified.find? (fun o => o.id == slot.id) with
          | some matchingModify => matchingModify
          | none => slot)) ++ inventoryState.add }

/-- `internalApplyOneInventoryState` for an NPC. -/
def internalApplyOneInventoryStateNpc (all : Bool) (now : Int) (acc : INpc)
    (inventoryState : IInventoryState) : INpc :=
  if all || decide (now ≥ inventoryState.time) then
    { acc with inventory := applyInventoryStateDelta acc.inventory inventoryState }
  else acc

/-- `internalApplyOneInventoryState` for a stockpile. -/
def internalApplyOneInventoryStateStockpile (all : Bool) (now : Int)
    (acc : IStockpile) (inventoryState : IInventoryState) : IStockpile :=
  if all || decide (now ≥ inventoryState.time) then
    { acc with inventory := applyInventoryStateDelta acc.inventory inventoryState }
  else acc

/-- `applyInventoryState` for an NPC: apply every due delta, then clear the
`inventoryState` list. -/
def applyInventoryStateNpc (npc : INpc) (now : Int) : INpc :=
  { npc.inventoryState.foldl (internalApplyOneInventoryStateNpc false now) npc with
    inventoryState := [] }

/-- `applyInventoryState` for a stockpile. -/
def applyInventoryStateStockpile (s : IStockpile) (now : Int) : IStockpile :=
  { s.inventoryState.foldl (internalApplyOneInventoryStateStockpile false now) s with
    inventoryState := [] }

/-- `applyOneInventoryState` (`src/npc.ts` line 849): unconditional
(`all = true`) application of a single delta to an NPC. -/
def applyOneInventoryStateNpc (npc : INpc) (inventoryState : IInventoryState)
    (now : Int) : INpc :=
  internalApplyOneInventoryStateNpc true now npc inventoryState

/-- `applyOneInventoryState` for a stockpile. -/
def applyOneInventoryStateStockpile (s : IStockpile)
    (inventoryState : IInventoryState) (now : Int) : IStockpile :=
  internalApplyOneInventoryStateStockpile true now s inventoryState

/-- `internalApplyPathToNpc` (`src/npc.ts` line 708): interpolate the npc
position from its timestamped path, clearing the path once it is in use.
`npc.path[indexOfPointB - 1]` is `undefined` when `indexOfPointB` is 0, hence
the explicit guard. When two adjacent points share a timestamp the source
divides by zero producing NaN coordinates; that situation is not exercised by
any claim (the planner emits strictly increasing leg times). -/
def internalApplyPathToNpc (npc : INpc) (now : Int) : INpc :=
  match npc.path.head? with
  | none => npc
  | some firstPoint =>
    if now > firstPoint.time then
      match jsFindIndex (fun p => decide (p.time > now)) npc.path with
      | some indexOfPointB =>
        if indexOfPointB = 0 then npc
        else
          match npc.path.get? (indexOfPointB - 1), npc.path.get? indexOfPointB with
          | some a, some b =>
            let dx := b.location.x - a.location.x
            let dy := b.location.y - a.location.y
            let dt : ℚ := ((b.time - a.time : Int) : ℚ)
            let t : ℚ := (((now - a.time : Int) : ℚ)) / dt
            { npc with
              x := a.location.x + dx * t
              y := a.location.y + dy * t
              path := [] }
          | _, _ => npc
      | none =>
        match npc.path.getLast? with
        | some lastPoint =>
          { npc with
            x := lastPoint.location.x
            y := lastPoint.location.y
            path := [] }
        | none => npc
    else npc

/-- `applyPathToNpc` (`src/npc.ts` line 859): interpolate inventory state
first, then the path. -/
def applyPathToNpc (npc : INpc) (now : Int) : INpc :=
  internalApplyPathToNpc (applyInventoryStateNpc npc now) now

/-! ### The cell planner (`src/npc.ts`, second `CellController`) -/

/-- Stable insertion of `x` after every earlier element `y` with `le y x`. -/
def insertSorted (le : α → α → Bool) (x : α) : List α → List α
  | [] => [x]
  | y :: ys => if le y x then y :: insertSorted le x ys else x :: y :: ys

/-- JavaScript `Array.prototype.sort` with an ascending numeric comparator:
a stable sort; any two stable sorts agree, so a stable insertion sort models
it exactly. -/
def jsSortBy (le : α → α → Bool) (l : List α) : List α :=
  l.foldl (fun acc x => insertSorted le x acc) []

/-- String-keyed JS object used as a map: an insertion-ordered association
list (`Object.values` returns values in insertion order for string keys). -/
abbrev JsMap (α : Type) : Type := List (String × α)

/-- `m[k]` lookup. -/
def JsMap.get (m : JsMap α) (k : String) : Option α :=
  (List.find? (fun e => e.1 == k) m).map (fun e => e.2)

/-- `m[k] = v`: overwrite in place, or append a new key. -/
def JsMap.set (m : JsMap α) (k : String) (v : α) : JsMap α :=
  if List.any m (fun e => e.1 == k) then
    List.map (fun e => if e.1 == k then (k, v) else e) m
  else m ++ [(k, v)]

/-- `Object.values(m)`. -/
def JsMap.values (m : JsMap α) : List α :=
  List.map (fun e => e.2) m

/-- `if (m[k]) m[k].push(ev); else m[k] = [ev];` — the shape of the
`add...Event` helpers. -/
def JsMap.push (m : JsMap (List α)) (k : String) (ev : α) : JsMap (List α) :=
  match JsMap.get m k with
  | some l => JsMap.set m k (l ++ [ev])
  | none => JsMap.set m k [ev]

/-- `ISimulationEvent<INpc>`. -/
structure ISimulationEvent where
  readyTime : Int
  data : INpc

/-- `IResourceEvent`. -/
structure IResourceEvent where
  resourceId : String
  state : IResourcePartial
  time : Int

/-- `INetworkObjectEvent`. -/
structure INetworkObjectEvent where
  objectId : String
  time : Int
  state : INetworkObjectState
  deriving DecidableEq, Repr

/-- `INpcInventoryEvent`. -/
structure INpcInventoryEvent where
  npcId : String
  time : Int
  state : IInventoryState
  deriving DecidableEq, Repr

/-- `IStockpileInventoryEvent`. -/
structure IStockpileInventoryEvent where
  stockpileId : String
  time : Int
  state : IInventoryState
  deriving DecidableEq, Repr

/-- `ISpawnEvent`. -/
structure ISpawnEvent where
  time : Int
  spawn : INetworkObject
  deriving DecidableEq, Repr

/-- `ICellSimulationState`. -/
structure ICellSimulationState where
  npcs : List ISimulationEvent
  resources : List IResource
  spawns : List ISpawnEvent
  resourceEvents : JsMap (List IResourceEvent)
  networkObjectEvents : JsMap (List INetworkObjectEvent)
  npcInventoryEvents : JsMap (List INpcInventoryEvent)
  stockpiles : List IStockpile
  stockpileInventoryEvents : JsMap (List IStockpileInventoryEvent)

/-- `ICellControllerParams`. -/
structure ICellControllerParams where
  npcs : List INpc
  resources : List IResource
  houses : List IHouse
  objects : List INetworkObject
  stockpiles : List IStockpile

/-- `ICellFinalState`. -/
structure ICellFinalState where
  npcs : List INpc
  resources : List IResource
  objects : List INetworkObject
  stockpiles : List IStockpile

/-- `INpcWalkResult`. -/
structure INpcWalkResult where
  duration : ℚ
  path : List INpcPathPoint

/-- The result record of `walkNpcTowardsLocation`. -/
structure IWalkOutcome where
  duration : ℚ
  npcReadyTime : Int
  npcEvent : ISimulationEvent

/-- The `CellController` instance state (`src/npc.ts` line 911 on). The two
trailing model fields carry the ambient nondeterminism the source reaches out
to: `aleaAlgorithm` is seedrandom's seeding function, and
`mathRandom`/`mathRandomPos` model the global unseeded `Math.random()`
stream consumed by `handleCraftJob`. -/
structure CellController where
  npcs : JsMap INpc
  resources : JsMap IResource
  houses : JsMap IHouse
  objects : JsMap INetworkObject
  stockpiles : JsMap IStockpile
  state : ICellSimulationState
  startTime : Int
  currentMilliseconds : Int
  aleaAlgorithm : String → AleaStream
  mathRandom : Nat → ℚ
  mathRandomPos : Nat

namespace CellController

/-- One `Math.random()` call. -/
def nextMathRandom (c : CellController) : ℚ × CellController :=
  (c.mathRandom c.mathRandomPos, { c with mathRandomPos := c.mathRandomPos + 1 })

/-- The `CellController` constructor (`src/npc.ts` lines 956-992): key every
input collection by id (houses by `npcId`), pre-interpolating each entry to
the wall clock `now`, and capture `startTime` from the wall clock. -/
def make (algorithm : String → AleaStream) (mathRandom : Nat → ℚ)
    (params : ICellControllerParams) (now : Int) : CellController :=
  { npcs := params.npcs.foldl
      (fun acc npc => JsMap.set acc npc.id (applyPathToNpc npc now)) []
    resources := params.resources.foldl
      (fun acc resource => JsMap.set acc resource.id (applyStateToResource resource now)) []
    houses := params.houses.foldl
      (fun acc house => JsMap.set acc house.npcId house) []
    objects := params.objects.foldl
      (fun acc obj => JsMap.set acc obj.id (applyStateToNetworkObject obj now)) []
    stockpiles := params.stockpiles.foldl
      (fun acc obj => JsMap.set acc obj.id (applyInventoryStateStockpile obj now)) []
    state :=
      { npcs := []
        resources := []
        spawns := []
        resourceEvents := []
        networkObjectEvents := []
        npcInventoryEvents := []
        stockpiles := []
        stockpileInventoryEvents := [] }
    startTime := now
    currentMilliseconds := 0
    aleaAlgorithm := algorithm
    mathRandom := mathRandom
    mathRandomPos := 0 }

/-- `setupState` (`src/npc.ts` lines 997-1015). -/
def setupState (c : CellController) (now : Int) : CellController :=
  { c with
    state :=
      { npcs := (JsMap.values c.npcs).map
          (fun npc => ⟨npc.readyTime, applyPathToNpc npc now⟩)
        resources := (JsMap.values c.resources).map
          (fun resource => applyStateToResource resource now)
        spawns := []
        resourceEvents := []
        networkObjectEvents := []
        npcInventoryEvents := []
        stockpiles := (JsMap.values c.stockpiles).map
          (fun stockpile => applyInventoryStateStockpile stockpile now)
        stockpileInventoryEvents := [] }
    startTime := now
    currentMilliseconds := 0 }

/-- `sortEvents`: sort the npc queue ascending by `readyTime`
(`newestSimulationEvent` comparator). -/
def sortEvents (c : CellController) : CellController :=
  { c with
    state :=
      { c.state with
        npcs := jsSortBy (fun a b => decide (a.readyTime ≤ b.readyTime)) c.state.npcs } }

/-- `hasInventorySpace`. -/
def hasInventorySpace (inventory : IPersonsInventory) : Bool :=
  decide (inventory.slots.length < inventory.rows * inventory.columns)

/-- `hasRecipeItems`: for every recipe input, the held total of matching
items is strictly greater than `quantity * amount`. -/
def hasRecipeItems (recipe : ICraftingRecipe) (amount : Nat)
    (inventory : IPersonsInventory) : Bool :=
  (recipe.items.map (fun item =>
    let numItems := inventory.slots.foldl
      (fun acc slot => if slot.objectType == item.item then acc + slot.amount else acc) 0
    decide (numItems > item.quantity * amount))).all (fun b => b)

/-- `hasItemInInventory`. -/
def hasItemInInventory (inventory : IPersonsInventory) : Bool :=
  decide (inventory.slots.length > 0)

/-- `isNpcReady`: `startTime + currentMilliseconds ≥ readyTime`. -/
def isNpcReady (c : CellController) (npc : INpc) : Bool :=
  decide (c.startTime + c.currentMilliseconds ≥ npc.readyTime)

/-- `isResourceReady`: not depleted, or past its ready time. -/
def isResourceReady (c : CellController) (resource : IResource) : Bool :=
  let ready : Bool := decide (c.startTime + c.currentMilliseconds ≥ resource.readyTime)
  !resource.depleted || ready

/-- `getFirstEventIndex`: index of the first ready npc in the sorted queue. -/
def getFirstEventIndex (c : CellController) : Option Nat :=
  if c.state.npcs.length ≤ 0 then none
  else jsFindIndex (fun npcEvent => isNpcReady c npcEvent.data) c.state.npcs

/-- Manhattan `distance`. -/
def distance (a b : IObject) : ℚ :=
  |b.x - a.x| + |b.y - a.y|

/-- `WAIT_TIME_AFTER_WALKING`. -/
def WAIT_TIME_AFTER_WALKING : ℚ := 2000

/-- `WAIT_TIME_AFTER_PICK_UP`. -/
def WAIT_TIME_AFTER_PICK_UP : ℚ := 2000

/-- `generatePathToResource` (`src/npc.ts` lines 1088-1136): a Manhattan
path, vertical leg then horizontal leg, at 10 ms per pixel. -/
def generatePathToResource (c : CellController) (npc : INpc)
    (resource : IObject) : INpcWalkResult :=
  let base : ℚ := ((c.startTime + c.currentMilliseconds : Int) : ℚ)
  let initialPoint : INpcPathPoint :=
    ⟨jsToInteger base, ⟨npc.x, npc.y⟩⟩
  let yDelta := resource.y - npc.y
  let yDistance := |yDelta|
  let (path1, t1) :=
    if yDistance > 0 then
      ([initialPoint, ⟨jsToInteger (base + yDistance * 10), ⟨npc.x, npc.y + yDelta⟩⟩],
        yDistance * 10)
    else ([initialPoint], (0 : ℚ))
  let xDelta := resource.x - npc.x
  let xDistance := |xDelta|
  let (path2, t2) :=
    if xDistance > 0 then
      (path1 ++
        [⟨jsToInteger (base + t1 + xDistance * 10), ⟨npc.x + xDelta, npc.y + yDelta⟩⟩],
        t1 + xDistance * 10)
    else (path1, t1)
  ⟨t2, path2⟩

/-- `walkNpcTowardsLocation` (`src/npc.ts` lines 1147-1187): extend the npc
path, move it to the final point and push its ready time past the walk plus
both waits, storing the new event back into the queue slot. -/
def walkNpcTowardsLocation (c : CellController) (npcEvent : ISimulationEvent)
    (firstEventIndex : Nat) (location : IObject) :
    IWalkOutcome × CellController :=
  let walk := generatePathToResource c npcEvent.data location
  let npcReadyTime : Int :=
    jsToInteger (((c.startTime + c.currentMilliseconds : Int) : ℚ) + walk.duration +
      WAIT_TIME_AFTER_WALKING + WAIT_TIME_AFTER_PICK_UP)
  let finalPoint := walk.path.getLast?
  let npcEvent' : ISimulationEvent :=
    { readyTime := npcReadyTime
      data :=
        { npcEvent.data with
          path := npcEvent.data.path ++ walk.path
          x := (finalPoint.map (fun p => p.location.x)).getD npcEvent.data.x
          y := (finalPoint.map (fun p => p.location.y)).getD npcEvent.data.y
          readyTime := npcReadyTime } }
  (⟨walk.duration, npcReadyTime, npcEvent'⟩,
    { c with
      state := { c.state with npcs := c.state.npcs.set firstEventIndex npcEvent' } })

/-- `addNetworkObjectEvent`. -/
def addNetworkObjectEvent (c : CellController) (objectId : String)
    (event : INetworkObjectEvent) : CellController :=
  { c with
    state :=
      { c.state with
        networkObjectEvents := JsMap.push c.state.networkObjectEvents objectId event } }

/-- `addNpcInventoryEvent`. -/
def addNpcInventoryEvent (c : CellController) (npcId : String)
    (event : INpcInventoryEvent) : CellController :=
  { c with
    state :=
      { c.state with
        npcInventoryEvents := JsMap.push c.state.npcInventoryEvents npcId event } }

/-- `addStockpileInventoryEvent`. -/
def addStockpileInventoryEvent (c : CellController) (stockpileId : String)
    (event : IStockpileInventoryEvent) : CellController :=
  { c with
    state :=
      { c.state with
        stockpileInventoryEvents :=
          JsMap.push c.state.stockpileInventoryEvents stockpileId event } }

/-- `addResourceEvent`. -/
def addResourceEvent (c : CellController) (resourceId : String)
    (event : IResourceEvent) : CellController :=
  { c with
    state :=
      { c.state with
        resourceEvents := JsMap.push c.state.resourceEvents resourceId event } }

/-- `spawnItem` (`src/npc.ts` lines 1226-1250): record the spawned item
(`exist = false` with one `exist = true` state event) and its object event. -/
def spawnItem (c : CellController) (spawn : INetworkObject) (time : Int) :
    ISpawnEvent × CellController :=
  let spawnedItemEvent : INetworkObjectEvent :=
    { objectId := spawn.id
      time := time
      state := { time := time, state := { exist := some true } } }
  let spawnEvent : ISpawnEvent :=
    { time := time
      spawn := { spawn with exist := false, state := [spawnedItemEvent.state] } }
  let c := { c with state := { c.state with spawns := c.state.spawns ++ [spawnEvent] } }
  (spawnEvent, addNetworkObjectEvent c spawn.id spawnedItemEvent)

end CellController

/-- All fields of a full-object spread `{...obj}` used as a patch (the nested
`state` list a spread would also carry is omitted, see
`INetworkObjectPartial`). -/
def INetworkObject.toFullPartial (o : INetworkObject) : INetworkObjectPartial :=
  { id := some o.id
    x := some o.x
    y := some o.y
    objectType := some o.objectType
    amount := some o.amount
    exist := some o.exist
    isInInventory := some o.isInInventory
    grabbedByPersonId := some o.grabbedByPersonId
    grabbedByNpcId := some o.grabbedByNpcId
    insideStockpile := some o.insideStockpile
    lastUpdate := some o.lastUpdate
    health := some o.health
    cell := some o.cell
    version := some o.version }

namespace InventoryController

/-- Modelled from the spec: `insertIntoStockpile` belongs to the newer
`InventoryController` revision that is not part of this snapshot (`src/npc.ts`
line 1643 calls it). Spec §4.B: "`withdrawFromStockpile(slot, amount)` /
`depositIntoStockpile(item)` are symmetric to drop/pickup but clear/set
`insideStockpile` instead of grabbed-by-*." So: the same first-stackable-merge
or append policy as pickup, the merged or appended slot marked
`isInInventory` with `insideStockpile` set to the holding stockpile and both
grabbed-by ids null. -/
def insertIntoStockpile (c : InventoryController) (item : INetworkObject)
    (now : Int) : Except String IInventoryTransaction × InventoryController :=
  let stackableSlot := c.slots.find? (stackableWith item)
  let emptySlot : Bool := decide (c.slots.length < c.numMaxSlots)
  if stackableSlot.isSome || emptySlot then
    let slotsWithoutItem := c.slots.filter (fun slot => slot.id != item.id)
    match stackableSlot with
    | some s =>
      let newStackableSlot : INetworkObject :=
        { s with
          amount := s.amount + item.amount
          isInInventory := true
          insideStockpile := some c.inventoryHolder.id
          grabbedByPersonId := none
          grabbedByNpcId := none
          lastUpdate := now }
      let newSlots := slotsWithoutItem.map
        (fun slot => if slot.id == s.id then newStackableSlot else slot)
      (.ok ⟨none, [newStackableSlot], [], []⟩, { c with slots := newSlots })
    | none =>
      let updatedItem : INetworkObject :=
        { item with
          isInInventory := true
          insideStockpile := some c.inventoryHolder.id
          grabbedByPersonId := none
          grabbedByNpcId := none
          lastUpdate := now }
      (.ok ⟨some updatedItem, [], [], []⟩,
        { c with slots := slotsWithoutItem ++ [updatedItem] })
  else (.error "Not enough room for item", c)

/-- Modelled from the spec: `withdrawFromStockpile(slot, amount)` of the newer
`InventoryController` revision (called at `src/npc.ts` line 1794) is not part
of this snapshot. Symmetric to drop but by amount: the withdrawn item leaves
the stockpile with its ownership cleared; the source slot is deleted when
fully consumed and modified otherwise. -/
def withdrawFromStockpile (c : InventoryController) (slot : INetworkObject)
    (amount : Nat) (now : Int) :
    Except String IInventoryTransaction × InventoryController :=
  match c.slots.find? (fun s => s.id == slot.id) with
  | none => (.ok ⟨none, [], [], []⟩, c)
  | some s =>
    let amountToWithdraw := min amount s.amount
    let withdrawnItem : INetworkObject :=
      { s with
        amount := amountToWithdraw
        isInInventory := false
        insideStockpile := none
        grabbedByPersonId := none
        grabbedByNpcId := none
        lastUpdate := now }
    if s.amount ≤ amountToWithdraw then
      (.ok ⟨some withdrawnItem, [], [s.id], []⟩,
        { c with slots := c.slots.filter (fun t => t.id != s.id) })
    else
      let modified : INetworkObject :=
        { s with amount := s.amount - amountToWithdraw, lastUpdate := now }
      (.ok ⟨some withdrawnItem, [], [], [modified]⟩,
        { c with
          slots := c.slots.map (fun t => if t.id == s.id then modified else t) })

end InventoryController

namespace CellController

/-- JS `findIndex` plus the subsequent element access. -/
def findIndexAndValue (p : α → Bool) (l : List α) : Option (Nat × α) :=
  match jsFindIndex p l with
  | none => none
  | some i => (l.get? i).map (fun v => (i, v))

/-- `getNextResourceIndex` (`src/npc.ts` lines 1077-1081): sort the live
resource list by distance to the npc — the source's in-place `sort` mutates
`state.resources`, so the sorted list is returned alongside the index. -/
def getNextResourceIndex (c : CellController) (npc : INpc) :
    List IResource × Option (Nat × IResource) :=
  let sorted := jsSortBy
    (fun a b => decide (distance ⟨npc.x, npc.y⟩ ⟨a.x, a.y⟩ ≤ distance ⟨npc.x, npc.y⟩ ⟨b.x, b.y⟩))
    c.state.resources
  (sorted, findIndexAndValue (isResourceReady c) sorted)

/-- `collectResources` (`src/npc.ts` lines 1257-1404). `now` is the wall
clock, read only for `lastUpdate` fields inside the inventory engine and the
spawner. The source mutates `spawnEvent.spawn.state` after the spawn event
was pushed; the push below rewrites the just-appended spawns entry to model
that aliasing. -/
def collectResources (c : CellController) (npcEvent : ISimulationEvent)
    (firstEventIndex : Nat) (now : Int) : Except String CellController :=
  let (sortedResources, found) := getNextResourceIndex c npcEvent.data
  let c := { c with state := { c.state with resources := sortedResources } }
  match found with
  | none => .ok { c with currentMilliseconds := c.currentMilliseconds + 1000 }
  | some (nextResourceIndex, nextResource) =>
    let (walk, c) := walkNpcTowardsLocation c npcEvent firstEventIndex
      ⟨nextResource.x, nextResource.y⟩
    let npcEvent := walk.npcEvent
    match HarvestResourceController.make c.aleaAlgorithm nextResource with
    | .error e => .error e
    | .ok controller =>
      match controller.spawn now with
      | none => .error "TypeError: spawn selection returned undefined"
      | some (harvest, controller') =>
        let spawn := harvest.spawn
        let respawnTime := harvest.respawnTime
        let harvestedTime : Int :=
          jsToInteger (((c.startTime + c.currentMilliseconds : Int) : ℚ) +
            walk.duration + WAIT_TIME_AFTER_WALKING)
        let respawnedTime : Int := harvestedTime + respawnTime
        let pickUpTime : Int :=
          jsToInteger ((harvestedTime : ℚ) + WAIT_TIME_AFTER_PICK_UP)
        let harvestedState : IResourcePartial :=
          { spawnState := some (.saved controller'.saveState)
            depleted := some true
            readyTime := some respawnedTime }
        let respawnedState : IResourcePartial := { depleted := some false }
        let c :=
          { c with
            state :=
              { c.state with
                resources := c.state.resources.set nextResourceIndex
                  (applyResourcePartial nextResource harvestedState) } }
        let (spawnEvent, c) := spawnItem c spawn harvestedTime
        let resourceId := nextResource.id
        let c := addResourceEvent c resourceId
          ⟨resourceId, harvestedState, harvestedTime⟩
        let c := addResourceEvent c resourceId
          ⟨resourceId, respawnedState, respawnedTime⟩
        let inventoryController :=
          mkInventoryController c.aleaAlgorithm npcEvent.data.toInventoryHolder
        match inventoryController.pickUpItem spawnEvent.spawn now with
        | (.error e, _) => .error e
        | (.ok t, _) =>
          let c :=
            match t.updatedItem with
            | some _ =>
              let pickUpEvent : INetworkObjectEvent :=
                { objectId := spawn.id
                  time := pickUpTime
                  state :=
                    { time := pickUpTime
                      state :=
                        { isInInventory := some true
                          grabbedByNpcId := some (some npcEvent.data.id) } } }
              let c := addNetworkObjectEvent c spawn.id pickUpEvent
              { c with
                state :=
                  { c.state with
                    spawns := c.state.spawns.dropLast ++
                      [{ spawnEvent with
                          spawn :=
                            { spawnEvent.spawn with
                              state := spawnEvent.spawn.state ++ [pickUpEvent.state] } }] } }
            | none =>
              let c := t.stackableSlots.foldl
                (fun c stackableSlot =>
                  addNetworkObjectEvent c stackableSlot.id
                    { objectId := stackableSlot.id
                      time := pickUpTime
                      state :=
                        { time := pickUpTime
                          state := stackableSlot.toFullPartial } })
                c
              let destroyState : INetworkObjectState :=
                { time := pickUpTime, state := { exist := some false } }
              { c with
                state :=
                  { c.state with
                    spawns := c.state.spawns.dropLast ++
                      [{ spawnEvent with
                          spawn :=
                            { spawnEvent.spawn with
                              state := spawnEvent.spawn.state ++ [destroyState] } }] } }
          let npcInventoryEvent : INpcInventoryEvent :=
            { npcId := npcEvent.data.id
              time := pickUpTime
              state :=
                { time := pickUpTime
                  add := match t.updatedItem with | some u => [u] | none => []
                  modified := t.stackableSlots
                  remove := [] } }
          let c := addNpcInventoryEvent c npcEvent.data.id npcInventoryEvent
          let npcEvent : ISimulationEvent :=
            { readyTime := walk.npcReadyTime
              data :=
                { npcEvent.data with
                  inventoryState := npcEvent.data.inventoryState ++ [npcInventoryEvent.state]
                  readyTime := walk.npcReadyTime } }
          let npcEvent : ISimulationEvent :=
            { npcEvent with
              data := applyOneInventoryStateNpc npcEvent.data npcInventoryEvent.state now }
          .ok
            { c with
              state :=
                { c.state with npcs := c.state.npcs.set firstEventIndex npcEvent } }

/-- The `for (const item of npcEvent.data.inventory.slots)` loop of
`storeInStockpile` (`src/npc.ts` lines 1590-1703); the iterated list is the
snapshot taken at loop entry while `npcEvent` and the live stockpile evolve. -/
def storeInStockpileLoop (firstEventIndex stockpileIndex : Nat)
    (npcReadyTime now : Int) :
    List INetworkObject → CellController → ISimulationEvent →
    Except String (ISimulationEvent × CellController)
  | [], c, npcEvent => .ok (npcEvent, c)
  | item :: rest, c, npcEvent =>
    match c.state.stockpiles.get? stockpileIndex with
    | none => .ok (npcEvent, c)
    | some stockpile =>
      let npcInventoryController :=
        mkInventoryController c.aleaAlgorithm npcEvent.data.toInventoryHolder
      let stockpileInventoryController :=
        mkInventoryController c.aleaAlgorithm stockpile.toInventoryHolder
      let stockpileInventoryState := stockpileInventoryController.getInventory
      let maxSlots := stockpileInventoryState.rows * stockpileInventoryState.columns
      if stockpileInventoryState.slots.length ≥ maxSlots then .ok (npcEvent, c)
      else
        match npcInventoryController.dropItem item now with
        | (.error e, _) => .error e
        | (.ok dropTr, _) =>
          match dropTr.updatedItem with
          | none => storeInStockpileLoop firstEventIndex stockpileIndex
              npcReadyTime now rest c npcEvent
          | some npcItem =>
            let dropItemEvent : INetworkObjectEvent :=
              { objectId := npcItem.id
                time := npcReadyTime
                state :=
                  { time := npcReadyTime
                    state :=
                      { grabbedByNpcId := some none
                        isInInventory := some false } } }
            let c := addNetworkObjectEvent c npcItem.id dropItemEvent
            let npcDropItemEvent : INpcInventoryEvent :=
              { npcId := npcEvent.data.id
                time := npcReadyTime
                state :=
                  { time := npcReadyTime
                    add := []
                    modified := []
                    remove := [npcItem.id] } }
            let c := addNpcInventoryEvent c npcEvent.data.id npcDropItemEvent
            let npcEvent : ISimulationEvent :=
              { npcEvent with
                data :=
                  { npcEvent.data with
                    inventoryState :=
                      npcEvent.data.inventoryState ++ [npcDropItemEvent.state] } }
            let npcEvent : ISimulationEvent :=
              { npcEvent with
                data := applyOneInventoryStateNpc npcEvent.data npcDropItemEvent.state now }
            let c :=
              { c with
                state :=
                  { c.state with npcs := c.state.npcs.set firstEventIndex npcEvent } }
            match stockpileInventoryController.insertIntoStockpile npcItem now with
            | (.error e, _) => .error e
            | (.ok insTr, _) =>
              let stockpileEvent : IStockpileInventoryEvent :=
                { stockpileId := stockpile.id
                  time := npcReadyTime
                  state :=
                    { time := npcReadyTime
                      add := match insTr.updatedItem with | some u => [u] | none => []
                      modified := insTr.stackableSlots
                      remove := [] } }
              let c := addStockpileInventoryEvent c stockpile.id stockpileEvent
              let c :=
                { c with
                  state :=
                    { c.state with
                      stockpiles := c.state.stockpiles.set stockpileIndex
                        (applyOneInventoryStateStockpile
                          { stockpile with
                            inventoryState :=
                              stockpile.inventoryState ++ [stockpileEvent.state] }
                          stockpileEvent.state now) } }
              let c :=
                match insTr.updatedItem with
                | some updatedItem =>
                  addNetworkObjectEvent c updatedItem.id
                    { objectId := updatedItem.id
                      time := npcReadyTime
                      state :=
                        { time := npcReadyTime
                          state :=
                            { isInInventory := some true
                              insideStockpile := some (some stockpile.id) } } }
                | none =>
                  let c := addNetworkObjectEvent c npcItem.id
                    { objectId := npcItem.id
                      time := npcReadyTime
                      state :=
                        { time := npcReadyTime
                          state := { exist := some false } } }
                  insTr.stackableSlots.foldl
                    (fun c slot =>
                      addNetworkObjectEvent c slot.id
                        { objectId := slot.id
                          time := npcReadyTime
                          state :=
                            { time := npcReadyTime
                              state := { amount := some slot.amount } } })
                    c
              storeInStockpileLoop firstEventIndex stockpileIndex
                npcReadyTime now rest c npcEvent

/-- `storeInStockpile` (`src/npc.ts` lines 1570-1707): walk to the stockpile,
then move the npc inventory into it slot by slot until it fills. -/
def storeInStockpile (c : CellController) (npcEvent : ISimulationEvent)
    (firstEventIndex : Nat) (stockpileIndex : Nat) (now : Int) :
    Except String (ISimulationEvent × CellController) :=
  match c.state.stockpiles.get? stockpileIndex with
  | none => .ok (npcEvent, c)
  | some stockpile =>
    let (walk, c) := walkNpcTowardsLocation c npcEvent firstEventIndex
      ⟨stockpile.x, stockpile.y⟩
    storeInStockpileLoop firstEventIndex stockpileIndex walk.npcReadyTime now
      npcEvent.data.inventory.slots c walk.npcEvent

/-- The `while (withdrawAmountLeft > 0)` loop of `withdrawFromStockpile`
(`src/npc.ts` lines 1752-1759). The fuel argument equals the initial amount:
every iteration removes at least `min 1 maxStack`, and the call sites always
pass a positive stack size (`getMaxStackSize` is never 0), so the fuel never
runs out. -/
def withdrawAmountsAux : Nat → Nat → Nat → List Nat
  | 0, _, _ => []
  | _, _, 0 => []
  | fuel + 1, maxStack, left =>
    let withdrawAmount := min left maxStack
    withdrawAmount :: withdrawAmountsAux fuel maxStack (left - withdrawAmount)

/-- The withdraw amounts list: `quantity * amountRecipes` split into chunks
of at most the stack limit. -/
def withdrawAmounts (maxStack left : Nat) : List Nat :=
  withdrawAmountsAux left maxStack left

/-- The `reduce` computing `slotAmountPairs` (`src/npc.ts` lines 1764-1786). -/
def computeSlotAmountPairs (slots : List INetworkObject)
    (recipeItemType : ENetworkObjectType) (withdrawAmount : Nat) :
    List (Nat × INetworkObject) :=
  slots.foldl
    (fun acc slot =>
      if slot.objectType == recipeItemType then
        let amountLeft := withdrawAmount - acc.foldl (fun a p => a + p.1) 0
        let amountToWithdrawForSlot := min slot.amount amountLeft
        if amountToWithdrawForSlot > 0 then acc ++ [(amountToWithdrawForSlot, slot)]
        else acc
      else acc)
    []

/-- The `for (const slotAmountPair of slotAmountPairs)` loop (`src/npc.ts`
lines 1789-1868), threading the two live inventory controllers; a full npc
inventory propagates the pickup throw. `stockpileSnap` is the stockpile
variable captured at the enclosing recipe-item iteration. -/
def withdrawPairsLoop (firstEventIndex stockpileIndex : Nat)
    (stockpileSnap : IStockpile) (npcReadyTime now : Int) :
    List (Nat × INetworkObject) → CellController → ISimulationEvent →
    InventoryController → InventoryController →
    Except String (CellController × ISimulationEvent × InventoryController × InventoryController)
  | [], c, npcEvent, npcCtrl, stockCtrl => .ok (c, npcEvent, npcCtrl, stockCtrl)
  | (amountToWithdraw, slotToWithdraw) :: rest, c, npcEvent, npcCtrl, stockCtrl =>
    match stockCtrl.withdrawFromStockpile slotToWithdraw amountToWithdraw now with
    | (.error e, _) => .error e
    | (.ok wTr, stockCtrl) =>
      match wTr.updatedItem with
      | none => withdrawPairsLoop firstEventIndex stockpileIndex stockpileSnap
          npcReadyTime now rest c npcEvent npcCtrl stockCtrl
      | some withdrawnItem =>
        let stockpileEvent : IStockpileInventoryEvent :=
          { stockpileId := stockpileSnap.id
            time := npcReadyTime
            state :=
              { time := npcReadyTime
                add := []
                modified := []
                remove := [withdrawnItem.id] } }
        let c := addStockpileInventoryEvent c stockpileSnap.id stockpileEvent
        let c :=
          { c with
            state :=
              { c.state with
                stockpiles := c.state.stockpiles.set stockpileIndex
                  (applyOneInventoryStateStockpile
                    { stockpileSnap with
                      inventoryState :=
                        stockpileSnap.inventoryState ++ [stockpileEvent.state] }
                    stockpileEvent.state now) } }
        let c := addNetworkObjectEvent c withdrawnItem.id
          { objectId := withdrawnItem.id
            time := npcReadyTime
            state :=
              { time := npcReadyTime
                state :=
                  { isInInventory := some false
                    insideStockpile := some none } } }
        match npcCtrl.pickUpItem withdrawnItem now with
        | (.error e, _) => .error e
        | (.ok pTr, npcCtrl) =>
          let c := addNetworkObjectEvent c withdrawnItem.id
            { objectId := withdrawnItem.id
              time := npcReadyTime
              state :=
                { time := npcReadyTime
                  state :=
                    { grabbedByNpcId := some (some npcEvent.data.id)
                      isInInventory := some true } } }
          let npcPickUpItemEvent : INpcInventoryEvent :=
            { npcId := npcEvent.data.id
              time := npcReadyTime
              state :=
                { time := npcReadyTime
                  add := match pTr.updatedItem with | some u => [u] | none => []
                  modified := pTr.stackableSlots
                  remove := [] } }
          let c := addNpcInventoryEvent c npcEvent.data.id npcPickUpItemEvent
          let npcEvent : ISimulationEvent :=
            { npcEvent with
              data :=
                { npcEvent.data with
                  inventoryState :=
                    npcEvent.data.inventoryState ++ [npcPickUpItemEvent.state] } }
          let npcEvent : ISimulationEvent :=
            { npcEvent with
              data := applyOneInventoryStateNpc npcEvent.data npcPickUpItemEvent.state now }
          let c :=
            { c with
              state :=
                { c.state with npcs := c.state.npcs.set firstEventIndex npcEvent } }
          withdrawPairsLoop firstEventIndex stockpileIndex stockpileSnap
            npcReadyTime now rest c npcEvent npcCtrl stockCtrl

/-- The `for (const withdrawAmount of withdrawAmounts)` loop (`src/npc.ts`
lines 1762-1869); the slot pairs are recomputed from the stale
`stockpileSnap` snapshot each round, mirroring the source. -/
def withdrawAmountsLoop (firstEventIndex stockpileIndex : Nat)
    (stockpileSnap : IStockpile) (recipeItemType : ENetworkObjectType)
    (npcReadyTime now : Int) :
    List Nat → CellController → ISimulationEvent →
    InventoryController → InventoryController →
    Except String (CellController × ISimulationEvent × InventoryController × InventoryController)
  | [], c, npcEvent, npcCtrl, stockCtrl => .ok (c, npcEvent, npcCtrl, stockCtrl)
  | withdrawAmount :: rest, c, npcEvent, npcCtrl, stockCtrl =>
    let slotAmountPairs :=
      computeSlotAmountPairs stockpileSnap.inventory.slots recipeItemType withdrawAmount
    match withdrawPairsLoop firstEventIndex stockpileIndex stockpileSnap
        npcReadyTime now slotAmountPairs c npcEvent npcCtrl stockCtrl with
    | .error e => .error e
    | .ok (c, npcEvent, npcCtrl, stockCtrl) =>
      withdrawAmountsLoop firstEventIndex stockpileIndex stockpileSnap
        recipeItemType npcReadyTime now rest c npcEvent npcCtrl stockCtrl

/-- The `for (const recipeItem of recipe.items)` loop (`src/npc.ts` lines
1744-1870): refresh the stockpile snapshot, build fresh controllers, and
withdraw the recipe quantity in stack-limited chunks. -/
def withdrawRecipeItemsLoop (firstEventIndex stockpileIndex : Nat)
    (amountRecipes : Nat) (npcReadyTime now : Int) :
    List ICraftingRecipeItem → CellController → ISimulationEvent →
    Except String (CellController × ISimulationEvent)
  | [], c, npcEvent => .ok (c, npcEvent)
  | recipeItem :: rest, c, npcEvent =>
    match c.state.stockpiles.get? stockpileIndex with
    | none => .ok (c, npcEvent)
    | some stockpileSnap =>
      let npcCtrl :=
        mkInventoryController c.aleaAlgorithm npcEvent.data.toInventoryHolder
      let stockCtrl :=
        mkInventoryController c.aleaAlgorithm stockpileSnap.toInventoryHolder
      let amounts :=
        withdrawAmounts (getMaxStackSize recipeItem.item)
          (recipeItem.quantity * amountRecipes)
      match withdrawAmountsLoop firstEventIndex stockpileIndex stockpileSnap
          recipeItem.item npcReadyTime now amounts c npcEvent npcCtrl stockCtrl with
      | .error e => .error e
      | .ok (c, npcEvent, _, _) =>
        withdrawRecipeItemsLoop firstEventIndex stockpileIndex amountRecipes
          npcReadyTime now rest c npcEvent

/-- `withdrawFromStockpile` at the planner level (`src/npc.ts` lines
1718-1874): walk to the stockpile, then withdraw every recipe input. -/
def withdrawFromStockpile (c : CellController) (npcEvent : ISimulationEvent)
    (firstEventIndex : Nat) (stockpileIndex : Nat) (recipe : ICraftingRecipe)
    (amountRecipes : Nat) (now : Int) :
    Except String (ISimulationEvent × CellController) :=
  match c.state.stockpiles.get? stockpileIndex with
  | none => .ok (npcEvent, c)
  | some stockpile =>
    let (walk, c) := walkNpcTowardsLocation c npcEvent firstEventIndex
      ⟨stockpile.x, stockpile.y⟩
    match withdrawRecipeItemsLoop firstEventIndex stockpileIndex amountRecipes
        walk.npcReadyTime now recipe.items c walk.npcEvent with
    | .error e => .error e
    | .ok (c, npcEvent) => .ok (npcEvent, c)

/-- `npcGoHome` (`src/npc.ts` lines 1881-1901): walk to the house keyed by
the npc id, or throw. -/
def npcGoHome (c : CellController) (npcEvent : ISimulationEvent)
    (firstEventIndex : Nat) : Except String (IWalkOutcome × CellController) :=
  match JsMap.get c.houses npcEvent.data.id with
  | none => .error "Could not find a house for the NPC to go home to"
  | some home =>
    .ok (walkNpcTowardsLocation c npcEvent firstEventIndex ⟨home.x, home.y⟩)

/-- `findAndStoreInStockpile` (`src/npc.ts` lines 1903-1936): sort the live
stockpiles by distance (in place, as the source's `sort` does), find the
first with free space, and store there. -/
def findAndStoreInStockpile (c : CellController) (npcEvent : ISimulationEvent)
    (firstEventIndex : Nat) (now : Int) :
    Except String (Bool × ISimulationEvent × CellController) :=
  let sorted := jsSortBy
    (fun a b =>
      decide (distance ⟨npcEvent.data.x, npcEvent.data.y⟩ ⟨a.x, a.y⟩ ≤
        distance ⟨npcEvent.data.x, npcEvent.data.y⟩ ⟨b.x, b.y⟩))
    c.state.stockpiles
  let c := { c with state := { c.state with stockpiles := sorted } }
  match findIndexAndValue (fun s => hasInventorySpace s.inventory) sorted with
  | none => .ok (false, npcEvent, c)
  | some (stockpileIndex, _) =>
    match storeInStockpile c npcEvent firstEventIndex stockpileIndex now with
    | .error e => .error e
    | .ok (npcEvent, c) => .ok (true, npcEvent, c)

/-- The `for (let i = 0; i < amountRecipes; i++)` crafting loop of
`craftRecipes` (`src/npc.ts` lines 2097-2168): each round builds a fresh
inventory controller from the current npc, crafts once (a throw from the
inventory engine propagates), records the object and inventory events and
applies the delta to the npc. -/
def craftRecipesLoop (firstEventIndex : Nat) (recipe : ICraftingRecipe)
    (npcReadyTime now : Int) :
    Nat → CellController → ISimulationEvent →
    Except String (CellController × ISimulationEvent)
  | 0, c, npcEvent => .ok (c, npcEvent)
  | i + 1, c, npcEvent =>
    let npcController :=
      mkInventoryController c.aleaAlgorithm npcEvent.data.toInventoryHolder
    match npcController.craftItem recipe now with
    | (.error e, _) => .error e
    | (.ok t, _) =>
      let c :=
        match t.updatedItem with
        | some updatedItem => (spawnItem c updatedItem npcReadyTime).2
        | none => c
      let c := (t.stackableSlots ++ t.modifiedSlots).foldl
        (fun c slot =>
          addNetworkObjectEvent c slot.id
            { time := npcReadyTime
              objectId := slot.id
              state :=
                { time := npcReadyTime
                  state := { amount := some slot.amount } } })
        c
      let c := t.deletedSlots.foldl
        (fun c slotId =>
          addNetworkObjectEvent c slotId
            { time := npcReadyTime
              objectId := slotId
              state :=
                { time := npcReadyTime
                  state := { exist := some false } } })
        c
      let inventoryState : IInventoryState :=
        { time := npcReadyTime
          add := match t.updatedItem with | some u => [u] | none => []
          modified := t.stackableSlots ++ t.modifiedSlots
          remove := t.deletedSlots }
      let npcInventoryEvent : INpcInventoryEvent :=
        { time := npcReadyTime
          npcId := npcEvent.data.id
          state := inventoryState }
      let c := addNpcInventoryEvent c npcEvent.data.id npcInventoryEvent
      let npcEvent : ISimulationEvent :=
        { readyTime := npcReadyTime
          data :=
            { npcEvent.data with
              inventoryState := npcEvent.data.inventoryState ++ [npcInventoryEvent.state]
              readyTime := npcReadyTime } }
      let npcEvent : ISimulationEvent :=
        { npcEvent with
          data := applyOneInventoryStateNpc npcEvent.data npcInventoryEvent.state now }
      let c :=
        { c with
          state := { c.state with npcs := c.state.npcs.set firstEventIndex npcEvent } }
      craftRecipesLoop firstEventIndex recipe npcReadyTime now i c npcEvent

/-- `craftRecipes` (`src/npc.ts` lines 2079-2169): go home first, then craft
the requested number of recipes at the arrival time. -/
def craftRecipes (c : CellController) (npcEvent : ISimulationEvent)
    (firstEventIndex : Nat) (recipe : ICraftingRecipe) (amountRecipes : Nat)
    (now : Int) : Except String CellController :=
  match npcGoHome c npcEvent firstEventIndex with
  | .error e => .error e
  | .ok (goHomeResult, c) =>
    match craftRecipesLoop firstEventIndex recipe goHomeResult.npcReadyTime now
        amountRecipes c goHomeResult.npcEvent with
    | .error e => .error e
    | .ok (c, _) => .ok c

/-- `findAndWithdrawFromStockpile` (`src/npc.ts` lines 1938-1977). -/
def findAndWithdrawFromStockpile (c : CellController)
    (npcEvent : ISimulationEvent) (firstEventIndex : Nat)
    (recipe : ICraftingRecipe) (amountRecipes : Nat) (now : Int) :
    Except String (Bool × ISimulationEvent × CellController) :=
  let sorted := jsSortBy
    (fun a b =>
      decide (distance ⟨npcEvent.data.x, npcEvent.data.y⟩ ⟨a.x, a.y⟩ ≤
        distance ⟨npcEvent.data.x, npcEvent.data.y⟩ ⟨b.x, b.y⟩))
    c.state.stockpiles
  let c := { c with state := { c.state with stockpiles := sorted } }
  match findIndexAndValue (fun s => hasRecipeItems recipe amountRecipes s.inventory)
      sorted with
  | none => .ok (false, npcEvent, c)
  | some (stockpileIndex, _) =>
    match withdrawFromStockpile c npcEvent firstEventIndex stockpileIndex
        recipe amountRecipes now with
    | .error e => .error e
    | .ok (npcEvent, c) => .ok (true, npcEvent, c)

/-- `handleGatherJob` (`src/npc.ts` lines 1979-2005): gather while there is
inventory space, otherwise deposit into a stockpile, otherwise go home (with
the original, unmodified npc event, as the source does). -/
def handleGatherJob (c : CellController) (npcEvent : ISimulationEvent)
    (firstEventIndex : Nat) (now : Int) : Except String CellController :=
  if hasInventorySpace npcEvent.data.inventory then
    collectResources c npcEvent firstEventIndex now
  else
    match findAndStoreInStockpile c npcEvent firstEventIndex now with
    | .error e => .error e
    | .ok (foundStockpile, _, c) =>
      if !foundStockpile then
        match npcGoHome c npcEvent firstEventIndex with
        | .error e => .error e
        | .ok (_, c) => .ok c
      else .ok c

/-- `handleCraftJob` (`src/npc.ts` lines 2007-2077): deposit any held items
first; pick a random product with the global `Math.random()`; if the product
exists and has a recipe, size the batch, withdraw the inputs and craft. When
`products` is empty or the product has no recipe, the function returns
without touching the npc or the clock. (For a recipe whose inputs and output
all fit in single stacks the source divides by zero: JavaScript yields
`Infinity` and the craft loop would not terminate; natural division yields 0
here. No recipe in the modeled `listOfRecipes` hits that case.) -/
def handleCraftJob (c : CellController) (npcEvent : ISimulationEvent)
    (firstEventIndex : Nat) (now : Int) : Except String CellController :=
  let afterStore : Except String (Sum CellController (ISimulationEvent × CellController)) :=
    if hasItemInInventory npcEvent.data.inventory then
      match findAndStoreInStockpile c npcEvent firstEventIndex now with
      | .error e => .error e
      | .ok (foundStockpile, npcEvent, c) =>
        if !foundStockpile then
          match npcGoHome c npcEvent firstEventIndex with
          | .error e => .error e
          | .ok (_, c) => .ok (.inl c)
        else .ok (.inr (npcEvent, c))
    else .ok (.inr (npcEvent, c))
  match afterStore with
  | .error e => .error e
  | .ok (.inl c) => .ok c
  | .ok (.inr (npcEvent, c)) =>
    let products := npcEvent.data.job.products
    let (r, c) := nextMathRandom c
    match handleCraftJobProductChoice products r with
    | none => .ok c
    | some product =>
      match listOfRecipes.find? (fun recipeEntry => recipeEntry.product == product) with
      | none => .ok c
      | some recipe =>
        let numInputSlotsPerRecipe := recipe.items.foldl
          (fun acc item => acc + item.quantity / getMaxStackSize item.item) 0
        let numOutputSlotsPerRecipe := recipe.amount / getMaxStackSize recipe.product
        let slotsPerRecipe := Nat.max numInputSlotsPerRecipe numOutputSlotsPerRecipe
        let maxSlots := npcEvent.data.inventory.rows * npcEvent.data.inventory.columns
        let numRecipes := maxSlots / slotsPerRecipe
        match findAndWithdrawFromStockpile c npcEvent firstEventIndex recipe
            numRecipes now with
        | .error e => .error e
        | .ok (foundStockpile, npcEvent, c) =>
          if !foundStockpile then
            match npcGoHome c npcEvent firstEventIndex with
            | .error e => .error e
            | .ok (_, c) => .ok c
          else craftRecipes c npcEvent firstEventIndex recipe numRecipes now

/-- One dispatch of the `run` loop body on a ready npc (`src/npc.ts` lines
1426-1441). -/
def dispatchNpc (c : CellController) (npcEvent : ISimulationEvent)
    (firstEventIndex : Nat) (now : Int) : Except String CellController :=
  if npcEvent.data.job.type == .GATHER then
    handleGatherJob c npcEvent firstEventIndex now
  else if npcEvent.data.job.type == .CRAFT then
    handleCraftJob c npcEvent firstEventIndex now
  else
    match npcGoHome c npcEvent firstEventIndex with
    | .error e => .error e
    | .ok (_, c) => .ok c

/-- The `while (this.currentMilliseconds < maxMilliseconds)` loop of `run`
(`src/npc.ts` lines 1415-1442), with an explicit fuel: `none` means the fuel
ran out before the loop exited — in particular, if the loop never exits, the
result is `none` for every fuel. `some (.error e)` is an exception escaping
the loop, `some (.ok c)` a normal exit at the horizon. -/
def runLoop (maxMilliseconds : Int) (now : Int) :
    Nat → CellController → Option (Except String CellController)
  | 0, _ => none
  | fuel + 1, c =>
    if c.currentMilliseconds < maxMilliseconds then
      let c := sortEvents c
      match getFirstEventIndex c with
      | none =>
        runLoop maxMilliseconds now fuel
          { c with currentMilliseconds := c.currentMilliseconds + 1000 }
      | some firstEventIndex =>
        match c.state.npcs.get? firstEventIndex with
        | none => runLoop maxMilliseconds now fuel c
        | some npcEvent =>
          match dispatchNpc c npcEvent firstEventIndex now with
          | .error e => some (.error e)
          | .ok c => runLoop maxMilliseconds now fuel c
    else some (.ok c)

/-- `run` (`src/npc.ts` lines 1410-1443): `setupState`, then the planning
loop. -/
def run (c : CellController) (maxMilliseconds : Int) (now : Int) (fuel : Nat) :
    Option (Except String CellController) :=
  runLoop maxMilliseconds now fuel (setupState c now)

/-- The npc path splice of `getState` (`src/npc.ts` lines 1454-1460):
`firstRelevantPathPoint` is the index of the first original path point with
`time ≥ startTime`; when it is -1 or 0 the output is the simulated npc's
path, otherwise the original path from one before that index followed by the
simulated path. -/
def getStateNpcPath (origPath simPath : List INpcPathPoint) (startTime : Int) :
    List INpcPathPoint :=
  match jsFindIndex (fun p => decide (p.time ≥ startTime)) origPath with
  | none => simPath
  | some 0 => simPath
  | some firstRelevantPathPoint =>
    origPath.drop (firstRelevantPathPoint - 1) ++ simPath

/-- `getState` (`src/npc.ts` lines 1444-1560): assemble the final npcs,
stockpiles, resources and objects, in the source's evaluation (and hence
throw) order. The stockpile `inventoryState` sort comparator subtracts
`+a.time` values — on the stored ISO strings that is NaN in JavaScript, which
leaves the order unchanged; with times modeled as integers we sort ascending
by time, the evident intent (no claim depends on this order). -/
def getState (c : CellController) (now : Int) : Except String ICellFinalState := do
  let npcs ← c.state.npcs.mapM (fun npcEvent =>
    match JsMap.get c.npcs npcEvent.data.id with
    | none => .error "Cannot find initial copy of npc"
    | some npc =>
      let path := getStateNpcPath npc.path npcEvent.data.path c.startTime
      let relevantNpcInventoryEvents :=
        (JsMap.get c.state.npcInventoryEvents npc.id).getD []
      let inventoryState := relevantNpcInventoryEvents.map (fun event => event.state)
      .ok { npc with path := path, inventoryState := inventoryState, lastUpdate := now })
  let stockpiles ← c.state.stockpiles.mapM (fun stockpile =>
    match JsMap.get c.stockpiles stockpile.id with
    | none => .error "Cannot find initial stockpile"
    | some initialStockpile =>
      let relevantInventoryEvents :=
        (JsMap.get c.state.stockpileInventoryEvents stockpile.id).getD []
      let inventoryState := jsSortBy
        (fun a b => decide (a.time ≤ b.time))
        (initialStockpile.inventoryState.filter (fun event => decide (event.time > now)) ++
          relevantInventoryEvents.map (fun event => event.state))
      .ok { initialStockpile with inventoryState := inventoryState, lastUpdate := now })
  let resources ← c.state.resources.mapM (fun resource =>
    let state := ((JsMap.get c.state.resourceEvents resource.id).getD []).map
      (fun resourceEvent =>
        ({ time := resourceEvent.time, state := resourceEvent.state } : IResourceState))
    match JsMap.get c.resources resource.id with
    | some initialResourceCopy =>
      .ok { initialResourceCopy with state := state, lastUpdate := now }
    | none => .error "Could not find initial resource")
  let spawnedObjects ← c.state.spawns.mapM (fun spawnEvent =>
    let state := ((JsMap.get c.state.networkObjectEvents spawnEvent.spawn.id).getD []).map
      (fun e => e.state)
    if state.length = 0 then .error "Spawn Object Empty State"
    else .ok { spawnEvent.spawn with state := state })
  let modifiedObjects ← (JsMap.values c.objects).mapM (fun obj =>
    let objectEvents := (JsMap.get c.state.networkObjectEvents obj.id).getD []
    let state :=
      obj.state.filter (fun s => decide (s.time > c.startTime)) ++
        objectEvents.map (fun event => event.state)
    if state.length = 0 then .error "Modified Object Empty State"
    else
      .ok { applyStateToNetworkObject obj now with state := state, lastUpdate := now })
  .ok
    { npcs := npcs
      resources := resources
      objects := spawnedObjects ++ modifiedObjects
      stockpiles := stockpiles }

end CellController

/-! ### Claim-level predicates, runners and concrete fixtures -/

/-- Ownership flags of a slot match the holder kind: exactly the matching
grabbed-by id is non-null. -/
def slotOwnershipOk (isPerson isNpc : Bool) (slot : INetworkObject) : Prop :=
  (isPerson = true → slot.grabbedByPersonId.isSome = true ∧ slot.grabbedByNpcId = none) ∧
  (isNpc = true → slot.grabbedByNpcId.isSome = true ∧ slot.grabbedByPersonId = none)

/-- The slot-list part of the inventory invariant: capacity respected and
every slot within stack bounds with correct ownership. -/
def slotsOk (c : InventoryController) (slots : List INetworkObject) : Prop :=
  slots.length ≤ c.numMaxSlots ∧
  ∀ slot ∈ slots,
    1 ≤ slot.amount ∧ slot.amount ≤ getMaxStackSize slot.objectType ∧
      slotOwnershipOk c.isPerson c.isNpc slot

/-- The inventory invariant of claim C2 over a whole controller, together
with the two structural facts the constructor establishes. -/
def ctrlOk (c : InventoryController) : Prop :=
  c.numMaxSlots = c.numRows * c.numColumns ∧
  c.isPerson = !c.isNpc ∧
  slotsOk c c.slots

/-- An inventory engine call of claim C2. -/
inductive InvOp where
  | pickUp (item : INetworkObject) (now : Int)
  | drop (item : INetworkObject) (now : Int)
  | craft (recipe : ICraftingRecipe) (now : Int)

/-- Execute one call, keeping the controller state that survives a throw. -/
def applyOp (c : InventoryController) : InvOp → InventoryController
  | .pickUp item now => (c.pickUpItem item now).2
  | .drop item now => (c.dropItem item now).2
  | .craft recipe now => (c.craftItem recipe now).2

/-- The per-call side condition of claim C2: a picked-up item carries
`1 ≤ amount ≤ stackLimit(type)`. -/
def opOk : InvOp → Prop
  | .pickUp item _ => 1 ≤ item.amount ∧ item.amount ≤ getMaxStackSize item.objectType
  | .drop _ _ => True
  | .craft _ _ => True

/-- Run a list of pickups, reporting the first thrown message. -/
def pickUpAllErr (c : InventoryController) : List INetworkObject → Option String
  | [] => none
  | item :: rest =>
    match c.pickUpItem item 0 with
    | (.error e, _) => some e
    | (.ok _, c') => pickUpAllErr c' rest

/-- Proof helper: a structural rendering of `List.mapM` over the `Except`
monad — map until the first thrown message. -/
def exMapM {α β : Type} (f : α → Except String β) : List α → Except String (List β)
  | [] => .ok []
  | a :: l =>
    match f a with
    | .error e => .error e
    | .ok b =>
      match exMapM f l with
      | .error e => .error e
      | .ok bs => .ok (b :: bs)

/-- Proof helper: the cumulative table as a left-to-right recursion carrying
the running prefix sum (equal to the `mapIdx`/`take` form used by the
spawner constructor). -/
def cumAux (acc : ℚ) : List IResourceSpawn → List IResourceSpawn
  | [] => []
  | s :: rest => { s with probability := acc } :: cumAux (acc + s.probability) rest

/-- The probability total, in the `reduce` shape the source uses. -/
def sumProb (l : List IResourceSpawn) : ℚ :=
  l.foldl (fun acc s => acc + s.probability) 0

/-- A deterministic alea stream for concrete evaluations. -/
def constStream : AleaStream :=
  ⟨fun _ => 1 / 2, fun _ => 7⟩

/-- A seeding algorithm mapping every seed to `constStream`. -/
def constAlgorithm : String → AleaStream :=
  fun _ => constStream

/-- A stream whose `quick` draws are all exactly 0 — a legal uniform value in
[0,1). -/
def zeroStream : AleaStream :=
  ⟨fun _ => 0, fun _ => 7⟩

/-- A seeding algorithm mapping every seed to `zeroStream`. -/
def zeroAlgorithm : String → AleaStream :=
  fun _ => zeroStream

/-- A loose STICK item of amount 1, ids `stick-0`, `stick-1`, ... -/
def stickItem (index : Nat) : INetworkObject :=
  { id := "stick-" ++ toString index
    x := 0
    y := 0
    objectType := .STICK
    amount := 1
    lastUpdate := 0
    health := ⟨0, 1, 1⟩ }

/-- `stick-0` ... `stick-(n-1)`. -/
def sticksList (n : Nat) : List INetworkObject :=
  (List.range n).map stickItem

/-- A person with an empty 1×10 inventory (the test fixture of
`src/inventory.test.ts`). -/
def personEmptyHolder : IInventoryHolder :=
  { id := "id"
    x := 0
    y := 0
    inventory := ⟨1, 10, []⟩
    craftingSeed := "craftingSeed"
    craftingState := .fresh
    path := none }

/-- The canonical recipe: WATTLE_WALL from 10 STICK. -/
def wattleRecipe : ICraftingRecipe :=
  { product := .WATTLE_WALL
    amount := 1
    items := [{ item := .STICK, quantity := 10 }]
    byHand := true }

/-- A recipe consuming 5 STICK (a legal `ICraftingRecipe` value; `craftItem`
accepts any recipe). -/
def fiveStickWallRecipe : ICraftingRecipe :=
  { product := .WATTLE_WALL
    amount := 1
    items := [{ item := .STICK, quantity := 5 }]
    byHand := true }

/-- A full stack of 10 sticks held by person `id`. -/
def heldStickStack : INetworkObject :=
  { id := "stick-stack"
    x := 0
    y := 0
    objectType := .STICK
    amount := 10
    isInInventory := true
    grabbedByPersonId := some "id"
    lastUpdate := 0
    health := ⟨0, 1, 1⟩ }

/-- A person with a 1×1 inventory holding one full stick stack. -/
def personOneSlotHolder : IInventoryHolder :=
  { id := "id"
    x := 0
    y := 0
    inventory := ⟨1, 1, [heldStickStack]⟩
    craftingSeed := "craftingSeed"
    craftingState := .fresh
    path := none }

/-- One held stick (amount 1) owned by person `id`. -/
def heldStick : INetworkObject :=
  { stickItem 0 with isInInventory := true, grabbedByPersonId := some "id" }

/-- A person whose 1×10 inventory holds exactly `heldStick`. -/
def personWithOneStickHolder : IInventoryHolder :=
  { id := "id"
    x := 0
    y := 0
    inventory := ⟨1, 10, [heldStick]⟩
    craftingSeed := "craftingSeed"
    craftingState := .fresh
    path := none }

/-- A person with 9 sticks in one slot (spec scenario: failed craft). -/
def personNineSticksHolder : IInventoryHolder :=
  { id := "id"
    x := 0
    y := 0
    inventory := ⟨1, 10, [{ heldStickStack with amount := 9 }]⟩
    craftingSeed := "craftingSeed"
    craftingState := .fresh
    path := none }

/-- A resource node with a single weight-1 STICK spawn. -/
def stickResource : IResource :=
  { id := "resource-1"
    x := 0
    y := 0
    objectType := .TREE
    spawnSeed := "spawnSeed"
    spawnState := .fresh
    depleted := false
    readyTime := 0
    spawns := [{ type := .STICK, probability := 1, spawnTime := 1000 }] }

/-- The npc of the non-terminating planner input: a CRAFT job with an empty
`products` list, an empty inventory, ready at time 0. -/
def emptyCraftNpc : INpc :=
  { id := "npc0"
    x := 0
    y := 0
    path := []
    readyTime := 0
    lastUpdate := 0
    inventory := ⟨1, 10, []⟩
    inventoryState := []
    job := { type := .CRAFT, products := [] }
    craftingSeed := "craftingSeed"
    craftingState := .fresh }

/-- The planner input of claim C9's failing run. -/
def emptyCraftParams : ICellControllerParams :=
  ⟨[emptyCraftNpc], [], [], [], []⟩

/-- The constructed controller for claim C9 (wall clock 0, Math.random
stream constantly 0). -/
def emptyCraftController : CellController :=
  CellController.make constAlgorithm (fun _ => 0) emptyCraftParams 0

/-- The loop state of the C9 run after `setupState`, with the global
`Math.random` stream already advanced `pos` times. -/
def emptyCraftLoopState (pos : Nat) : CellController :=
  { CellController.setupState emptyCraftController 0 with mathRandomPos := pos }

/-- A pre-existing loose object with no state timeline. -/
def statelessBox : INetworkObject :=
  { id := "obj1"
    x := 0
    y := 0
    objectType := .BOX
    amount := 1
    exist := false
    lastUpdate := 0
    health := ⟨0, 1, 1⟩
    state := [] }

/-- A planner whose only input is `statelessBox`; it receives no events when
no npc exists. -/
def statelessBoxController : CellController :=
  CellController.make constAlgorithm (fun _ => 0) ⟨[], [], [], [statelessBox], []⟩ 0

/-- An original npc path with one point before time 5 and one after. -/
def cxOrigPath : List INpcPathPoint :=
  [⟨0, ⟨0, 0⟩⟩, ⟨10, ⟨1, 1⟩⟩]

/-- The npc of claim C1's divergence: a CRAFT job offering two products, one
with a recipe and one without. -/
def twoProductNpc : INpc :=
  { emptyCraftNpc with
    job := { type := .CRAFT, products := [.WATTLE_WALL, .BOX] } }

/-- The planner input of claim C1: a single craft npc, nothing else. The
input carries no `Math.random` data — the ambient stream is a constructor
argument of the model only because the source reaches out to the global
generator. -/
def c1Params : ICellControllerParams :=
  ⟨[twoProductNpc], [], [], [], []⟩

/-- The C1 loop state at the first dispatch: `setupState` then the in-loop
`sortEvents`, parameterised by the ambient `Math.random` stream. -/
def c1S (f : Nat → ℚ) : CellController :=
  CellController.sortEvents
    (CellController.setupState (CellController.make constAlgorithm f c1Params 0) 0)

/-- The npc event dispatched in the C1 run. -/
def c1Ev : ISimulationEvent :=
  ⟨0, twoProductNpc⟩

/-- The controller `HarvestResourceController.make constAlgorithm
stickResource` builds, its arithmetic fields kept in the exact shape the
constructor produces. -/
def stickResourceCtrl : HarvestResourceController :=
  { postData := ⟨"resource-1"⟩
    rng := ⟨constStream, 0⟩
    sumCumulativeProbability := 0 + 1
    spawnsCumulativeProbability := [{ type := .STICK, probability := 0, spawnTime := 1000 }]
    resource := stickResource }

/-- The controller rebuilt from `stickResourceCtrl`'s saved RNG state. -/
def stickResourceCtrl2 : HarvestResourceController :=
  { stickResourceCtrl with
    resource := { stickResource with spawnState := .saved ⟨constStream, 0⟩ } }

/-- The part of two harvest controllers' state that determines their spawn
behaviour: equal RNG, equal probability tables, same node position. -/
def SpawnAgree (c1 c2 : HarvestResourceController) : Prop :=
  c1.rng = c2.rng ∧
  c1.sumCumulativeProbability = c2.sumCumulativeProbability ∧
  c1.spawnsCumulativeProbability = c2.spawnsCumulativeProbability ∧
  c1.resource.x = c2.resource.x ∧
  c1.resource.y = c2.resource.y

/-! ## Helper lemmas: the inventory engine -/

lemma getMaxStackSize_pos (t : ENetworkObjectType) : 1 ≤ getMaxStackSize t := by
  cases t <;> decide

lemma find?_of_prefix {α} (p : α → Bool) :
    ∀ (pre : List α) (s : α) (post : List α),
      (∀ x ∈ pre, p x = false) → p s = true →
      (pre ++ s :: post).find? p = some s := by
  intro pre
  induction pre with
  | nil =>
    intro s post _ hs
    simp [List.find?, hs]
  | cons a l ih =>
    intro s post hpre hs
    have ha : p a = false := hpre a (by simp)
    simpa [List.find?, ha] using ih s post (fun x hx => hpre x (by simp [hx])) hs

lemma foldl_ite_append {α} (p : α → Bool) (n : α) :
    ∀ (l acc : List α),
      List.foldl (fun acc x => if p x then acc ++ [n] else acc ++ [x]) acc l =
        acc ++ l.map (fun x => if p x then n else x) := by
  intro l
  induction l with
  | nil => intro acc; simp
  | cons x xs ih =>
    intro acc
    cases h : p x <;> simp [h, ih, List.foldl_cons]

namespace InventoryController

/-- The merged slot `pickUpItemInternal` builds when a stackable slot `s`
exists. -/
def mergedSlot (c : InventoryController) (itemToPickUp s : INetworkObject)
    (now : Int) : INetworkObject :=
  { s with
    amount := s.amount + itemToPickUp.amount
    isInInventory := true
    grabbedByPersonId := if c.isPerson then some c.inventoryHolder.id else none
    grabbedByNpcId := if c.isNpc then some c.inventoryHolder.id else none
    lastUpdate := now }

/-- The appended item `pickUpItemInternal` builds when no stackable slot
exists and a slot is free. -/
def appendedItem (c : InventoryController) (itemToPickUp : INetworkObject)
    (now : Int) : INetworkObject :=
  { itemToPickUp with
    isInInventory := true
    grabbedByPersonId := if c.isPerson then some c.inventoryHolder.id else none
    grabbedByNpcId := if c.isNpc then some c.inventoryHolder.id else none
    lastUpdate := now }

lemma pickUpItemInternal_merge (c : InventoryController)
    (item : INetworkObject) (slots : List INetworkObject) (now : Int)
    (s : INetworkObject)
    (hfind : slots.find? (stackableWith item) = some s) :
    c.pickUpItemInternal item slots now =
      (.ok ⟨none, [mergedSlot c item s now], [], []⟩,
        { c with
          slots := List.foldl
            (fun acc slot =>
              if slot.id == s.id then acc ++ [mergedSlot c item s now]
              else acc ++ [slot]) []
            (slots.filter (fun t => t.id != item.id)) }) := by
  unfold pickUpItemInternal
  rw [hfind]
  rfl

lemma merge_slots_map (c : InventoryController) (item s : INetworkObject)
    (now : Int) (l : List INetworkObject) :
    List.foldl
      (fun acc slot =>
        if slot.id == s.id then acc ++ [mergedSlot c item s now]
        else acc ++ [slot]) [] l =
      l.map (fun t => if t.id == s.id then mergedSlot c item s now else t) := by
  simpa using
    foldl_ite_append (fun t => t.id == s.id) (mergedSlot c item s now) l []

lemma pickUpItemInternal_append (c : InventoryController)
    (item : INetworkObject) (slots : List INetworkObject) (now : Int)
    (hfind : slots.find? (stackableWith item) = none)
    (hlen : slots.length < c.numMaxSlots) :
    c.pickUpItemInternal item slots now =
      (.ok ⟨some (appendedItem c item now), [], [], []⟩,
        { c with
          slots := slots.filter (fun t => t.id != item.id) ++ [appendedItem c item now] }) := by
  unfold pickUpItemInternal
  rw [hfind]
  simp [hlen]
  rfl

lemma pickUpItemInternal_full (c : InventoryController)
    (item : INetworkObject) (slots : List INetworkObject) (now : Int)
    (hfind : slots.find? (stackableWith item) = none)
    (hlen : ¬ slots.length < c.numMaxSlots) :
    c.pickUpItemInternal item slots now = (.error "Not enough room for item", c) := by
  unfold pickUpItemInternal
  rw [hfind]
  simp [hlen]

lemma pickUpItemInternal_rng (c : InventoryController)
    (item : INetworkObject) (slots : List INetworkObject) (now : Int) :
    ((c.pickUpItemInternal item slots now).2).rng = c.rng := by
  cases hfind : slots.find? (stackableWith item) with
  | some s => rw [pickUpItemInternal_merge c item slots now s hfind]
  | none =>
    by_cases hlen : slots.length < c.numMaxSlots
    · rw [pickUpItemInternal_append c item slots now hfind hlen]
    · rw [pickUpItemInternal_full c item slots now hfind hlen]

lemma pickUpItemInternal_error (c : InventoryController)
    (item : INetworkObject) (slots : List INetworkObject) (now : Int) (e : String)
    (h : (c.pickUpItemInternal item slots now).1 = .error e) :
    (c.pickUpItemInternal item slots now).2 = c := by
  cases hfind : slots.find? (stackableWith item) with
  | some s => rw [pickUpItemInternal_merge c item slots now s hfind] at h; cases h
  | none =>
    by_cases hlen : slots.length < c.numMaxSlots
    · rw [pickUpItemInternal_append c item slots now hfind hlen] at h; cases h
    · rw [pickUpItemInternal_full c item slots now hfind hlen]

end InventoryController

lemma slotOwnershipOk_of_fields (isPerson isNpc : Bool) (hid : String)
    (s : INetworkObject) (h : isPerson = !isNpc)
    (hp : s.grabbedByPersonId = if isPerson then some hid else none)
    (hn : s.grabbedByNpcId = if isNpc then some hid else none) :
    slotOwnershipOk isPerson isNpc s := by
  subst h
  cases isNpc <;>
    simp_all [slotOwnershipOk]

lemma stackableWith_facts (item s : INetworkObject)
    (h : InventoryController.stackableWith item s = true) :
    s.objectType = item.objectType ∧
      s.amount + item.amount ≤ getMaxStackSize s.objectType := by
  unfold InventoryController.stackableWith at h
  rw [Bool.and_eq_true] at h
  exact ⟨by simpa using h.1, by simpa using h.2⟩

lemma pickUpItemInternal_preserves (c : InventoryController)
    (item : INetworkObject) (slots : List INetworkObject) (now : Int)
    (hps : c.isPerson = !c.isNpc)
    (hlen : slots.length ≤ c.numMaxSlots)
    (hsl : ∀ s ∈ slots, 1 ≤ s.amount ∧ s.amount ≤ getMaxStackSize s.objectType ∧
      slotOwnershipOk c.isPerson c.isNpc s)
    (hc : ctrlOk c)
    (hitem : 1 ≤ item.amount ∧ item.amount ≤ getMaxStackSize item.objectType) :
    ctrlOk (c.pickUpItemInternal item slots now).2 := by
  cases hfind : slots.find? (InventoryController.stackableWith item) with
  | some s =>
    have hmem : s ∈ slots := List.mem_of_find?_eq_some hfind
    have hstack := stackableWith_facts item s (List.find?_some hfind)
    rw [InventoryController.pickUpItemInternal_merge c item slots now s hfind]
    simp only [InventoryController.merge_slots_map]
    refine ⟨hc.1, hc.2.1, ?_, ?_⟩
    · simpa using le_trans (List.length_filter_le _ slots) hlen
    · intro slot hslot
      rcases List.mem_map.mp hslot with ⟨t, ht, rfl⟩
      have htslots : t ∈ slots := (List.mem_filter.mp ht).1
      by_cases hid : (t.id == s.id) = true
      · rw [if_pos hid]
        refine ⟨?_, ?_, ?_⟩
        · have := (hsl s hmem).1
          simp [InventoryController.mergedSlot]
          omega
        · simpa [InventoryController.mergedSlot] using hstack.2
        · exact slotOwnershipOk_of_fields _ _ _ _ hps rfl rfl
      · rw [if_neg hid]
        exact hsl t htslots
  | none =>
    by_cases hroom : slots.length < c.numMaxSlots
    · rw [InventoryController.pickUpItemInternal_append c item slots now hfind hroom]
      refine ⟨hc.1, hc.2.1, ?_, ?_⟩
      · have h1 : (slots.filter (fun t => t.id != item.id)).length ≤ slots.length :=
          List.length_filter_le _ slots
        simp only [List.length_append, List.length_singleton]
        omega
      · intro slot hslot
        rcases List.mem_append.mp hslot with hin | hnew
        · exact hsl slot (List.mem_filter.mp hin).1
        · rcases List.mem_singleton.mp hnew with rfl
          refine ⟨hitem.1, ?_, ?_⟩

          · simpa [InventoryController.appendedItem] using hitem.2
          · exact slotOwnershipOk_of_fields _ _ _ _ hps rfl rfl
    · rw [InventoryController.pickUpItemInternal_full c item slots now hfind hroom]
      exact hc

lemma removeSlotStep_fst_length (r : ICraftingRecipeItem) (now : Int)
    (st : List INetworkObject × List String × Nat) (slot : INetworkObject) :
    ((InventoryController.removeSlotStep r now st slot).1).length = st.1.length + 1 := by
  unfold InventoryController.removeSlotStep
  dsimp only
  split <;> simp

lemma removeFold_length (r : ICraftingRecipeItem) (now : Int) :
    ∀ (l : List INetworkObject) (st : List INetworkObject × List String × Nat),
      ((List.foldl (InventoryController.removeSlotStep r now) st l).1).length =
        st.1.length + l.length := by
  intro l
  induction l with
  | nil => intro st; simp
  | cons x xs ih =>
    intro st
    rw [List.foldl_cons, ih, removeSlotStep_fst_length, List.length_cons]
    omega

lemma removeSlotStep_pred (r : ICraftingRecipeItem) (now : Int)
    (Q : INetworkObject → Prop)
    (hQ : ∀ (slot : INetworkObject) (u : Nat), Q slot →
      Q { slot with amount := slot.amount - u, lastUpdate := now })
    (st : List INetworkObject × List String × Nat) (slot : INetworkObject)
    (hst : ∀ x ∈ st.1, Q x) (hslot : Q slot) :
    ∀ x ∈ (InventoryController.removeSlotStep r now st slot).1, Q x := by
  unfold InventoryController.removeSlotStep
  dsimp only
  split
  · intro x hx
    rcases List.mem_append.mp hx with h | h
    · exact hst x h
    · rcases List.mem_singleton.mp h with rfl
      exact hQ slot _ hslot
  · intro x hx
    rcases List.mem_append.mp hx with h | h
    · exact hst x h
    · rcases List.mem_singleton.mp h with rfl
      exact hslot

lemma removeFold_pred (r : ICraftingRecipeItem) (now : Int)
    (Q : INetworkObject → Prop)
    (hQ : ∀ (slot : INetworkObject) (u : Nat), Q slot →
      Q { slot with amount := slot.amount - u, lastUpdate := now }) :
    ∀ (l : List INetworkObject) (st : List INetworkObject × List String × Nat),
      (∀ x ∈ st.1, Q x) → (∀ s ∈ l, Q s) →
      ∀ x ∈ (List.foldl (InventoryController.removeSlotStep r now) st l).1, Q x := by
  intro l
  induction l with
  | nil => intro st hst _; simpa using hst
  | cons a as ih =>
    intro st hst hl
    rw [List.foldl_cons]
    exact ih _ (removeSlotStep_pred r now Q hQ st a hst (hl a (by simp)))
      (fun s hs => hl s (by simp [hs]))

lemma internalRemove_ok (r : ICraftingRecipeItem) (slots : List INetworkObject)
    (ids : List String) (now : Int) (copy : List INetworkObject)
    (ids' : List String)
    (h : InventoryController.internalRemoveCraftingRecipeItem r slots ids now =
      .ok (copy, ids')) :
    copy = (List.foldl (InventoryController.removeSlotStep r now)
      ([], ids, r.quantity) slots).1 := by
  unfold InventoryController.internalRemoveCraftingRecipeItem at h
  dsimp only at h
  split at h
  · cases h
  · rw [Except.ok.injEq, Prod.mk.injEq] at h
    exact h.1.symm

lemma internalRemove_error (r : ICraftingRecipeItem) (slots : List INetworkObject)
    (ids : List String) (now : Int) (e : String)
    (h : InventoryController.internalRemoveCraftingRecipeItem r slots ids now =
      .error e) :
    e = "Not enough materials for crafting" := by
  unfold InventoryController.internalRemoveCraftingRecipeItem at h
  dsimp only at h
  split at h
  · rw [Except.error.injEq] at h
    exact h.symm
  · cases h

lemma removeAll_error :
    ∀ (items : List ICraftingRecipeItem) (slots : List INetworkObject)
      (ids : List String) (now : Int) (e : String),
      InventoryController.removeAllRecipeItems items slots ids now = .error e →
      e = "Not enough materials for crafting" := by
  intro items
  induction items with
  | nil => intro slots ids now e h; cases h
  | cons r rest ih =>
    intro slots ids now e h
    unfold InventoryController.removeAllRecipeItems at h
    cases hr : InventoryController.internalRemoveCraftingRecipeItem r slots ids now with
    | error e' =>
      rw [hr] at h
      rw [Except.error.injEq] at h
      rw [h] at hr
      exact internalRemove_error r slots ids now e hr
    | ok p =>
      rw [hr] at h
      exact ih p.1 p.2 now e h

lemma removeAll_shape (Q : INetworkObject → Prop) (now : Int)
    (hQ : ∀ (slot : INetworkObject) (u : Nat), Q slot →
      Q { slot with amount := slot.amount - u, lastUpdate := now }) :
    ∀ (items : List ICraftingRecipeItem) (slots : List INetworkObject)
      (ids : List String) (copy : List INetworkObject) (ids' : List String),
      InventoryController.removeAllRecipeItems items slots ids now = .ok (copy, ids') →
      (∀ s ∈ slots, Q s) →
      copy.length = slots.length ∧ ∀ x ∈ copy, Q x := by
  intro items
  induction items with
  | nil =>
    intro slots ids copy ids' h hs
    unfold InventoryController.removeAllRecipeItems at h
    rw [Except.ok.injEq, Prod.mk.injEq] at h
    rw [← h.1]
    exact ⟨rfl, hs⟩
  | cons r rest ih =>
    intro slots ids copy ids' h hs
    unfold InventoryController.removeAllRecipeItems at h
    cases hr : InventoryController.internalRemoveCraftingRecipeItem r slots ids now with
    | error e => rw [hr] at h; cases h
    | ok p =>
      rw [hr] at h
      have hshape := internalRemove_ok r slots ids now p.1 p.2 (by rw [hr])
      have hlen1 : p.1.length = slots.length := by
        rw [hshape, removeFold_length]
        simp
      have hpred1 : ∀ x ∈ p.1, Q x := by
        rw [hshape]
        exact removeFold_pred r now Q hQ slots ([], ids, r.quantity) (by simp) hs
      have := ih p.1 p.2 copy ids' h hpred1
      exact ⟨this.1.trans hlen1, this.2⟩

lemma getSlotsAfter_ok (c : InventoryController) (recipe : ICraftingRecipe)
    (now : Int) (ct : ICraftingTransaction)
    (hg : InventoryController.getSlotsAfterCraftingMaterials c recipe now = .ok ct) :
    ∃ copy ids,
      InventoryController.removeAllRecipeItems recipe.items c.slots [] now =
        .ok (copy, ids) ∧
      ct.newSlots = copy.filter (fun slot => decide (slot.amount > 0)) := by
  unfold InventoryController.getSlotsAfterCraftingMaterials at hg
  cases h : InventoryController.removeAllRecipeItems recipe.items c.slots [] now with
  | error e => rw [h] at hg; cases hg
  | ok p =>
    rw [h] at hg
    rw [Except.ok.injEq] at hg
    exact ⟨p.1, p.2, rfl, by rw [← hg]⟩

lemma getSlotsAfter_error (c : InventoryController) (recipe : ICraftingRecipe)
    (now : Int) (e : String)
    (hg : InventoryController.getSlotsAfterCraftingMaterials c recipe now = .error e) :
    e = "Not enough materials for crafting" := by
  unfold InventoryController.getSlotsAfterCraftingMaterials at hg
  cases h : InventoryController.removeAllRecipeItems recipe.items c.slots [] now with
  | error e' =>
    rw [h] at hg
    rw [Except.error.injEq] at hg
    rw [hg] at h
    exact removeAll_error recipe.items c.slots [] now e h
  | ok p => rw [h] at hg; cases hg

lemma createItemType_snd (c : InventoryController) (ty : ENetworkObjectType)
    (now : Int) :
    (c.createItemType ty now).2 = { c with rng := ⟨c.rng.stream, c.rng.pos + 1⟩ } :=
  rfl

lemma craftItem_snd_ok (c : InventoryController) (recipe : ICraftingRecipe)
    (now : Int) (ct : ICraftingTransaction)
    (hg : InventoryController.getSlotsAfterCraftingMaterials c recipe now = .ok ct) :
    (c.craftItem recipe now).2 =
      (((c.createItemType recipe.product now).2).pickUpItemInternal
        (c.createItemType recipe.product now).1 ct.newSlots now).2 := by
  unfold InventoryController.craftItem
  rw [hg]
  cases hres : ((c.createItemType recipe.product now).2).pickUpItemInternal
      (c.createItemType recipe.product now).1 ct.newSlots now with
  | mk r1 c2 => cases r1 <;> simp [hres]

lemma craftItem_preserves (c : InventoryController) (recipe : ICraftingRecipe)
    (now : Int) (hc : ctrlOk c) : ctrlOk (c.craftItem recipe now).2 := by
  cases hg : InventoryController.getSlotsAfterCraftingMaterials c recipe now with
  | error e =>
    have : (c.craftItem recipe now).2 = c := by
      unfold InventoryController.craftItem
      rw [hg]
    rw [this]
    exact hc
  | ok ct =>
    rw [craftItem_snd_ok c recipe now ct hg]
    rcases getSlotsAfter_ok c recipe now ct hg with ⟨copy, ids, hrem, hns⟩
    have hQ : ∀ (slot : INetworkObject) (u : Nat),
        (slot.amount ≤ getMaxStackSize slot.objectType ∧
          slotOwnershipOk c.isPerson c.isNpc slot) →
        ({ slot with amount := slot.amount - u, lastUpdate := now }.amount ≤
            getMaxStackSize { slot with amount := slot.amount - u, lastUpdate := now }.objectType ∧
          slotOwnershipOk c.isPerson c.isNpc
            { slot with amount := slot.amount - u, lastUpdate := now }) := by
      intro slot u hq
      refine ⟨le_trans (Nat.sub_le _ _) hq.1, ?_⟩
      have hown := hq.2
      unfold slotOwnershipOk at hown ⊢
      simpa using hown
    have hall := removeAll_shape _ now hQ recipe.items c.slots [] copy ids hrem
      (fun s hs => ⟨(hc.2.2.2 s hs).2.1, (hc.2.2.2 s hs).2.2⟩)
    have hpre : ctrlOk ((c.createItemType recipe.product now).2) := hc
    refine pickUpItemInternal_preserves _ _ _ _ hc.2.1 ?_ ?_ hpre
      ⟨le_refl 1, getMaxStackSize_pos _⟩
    · rw [hns]
      calc (copy.filter (fun slot => decide (slot.amount > 0))).length
          ≤ copy.length := List.length_filter_le _ copy
        _ = c.slots.length := hall.1
        _ ≤ c.numMaxSlots := hc.2.2.1
    · intro s hs
      rw [hns] at hs
      have hmem := List.mem_filter.mp hs
      have hq := hall.2 s hmem.1
      have hpos : 0 < s.amount := by simpa using hmem.2
      exact ⟨hpos, hq.1, hq.2⟩

lemma applyOp_preserves (c : InventoryController) (op : InvOp)
    (hc : ctrlOk c) (hop : opOk op) : ctrlOk (applyOp c op) := by
  cases op with
  | pickUp item now =>
    exact pickUpItemInternal_preserves c item c.slots now hc.2.1 hc.2.2.1
      hc.2.2.2 hc hop
  | drop item now =>
    refine ⟨hc.1, hc.2.1, ?_, ?_⟩
    · exact le_trans (List.length_filter_le _ c.slots) hc.2.2.1
    · intro s hs
      exact hc.2.2.2 s (List.mem_filter.mp hs).1
  | craft recipe now => exact craftItem_preserves c recipe now hc

lemma foldl_applyOp_preserves :
    ∀ (ops : List InvOp) (c : InventoryController),
      ctrlOk c → (∀ op ∈ ops, opOk op) → ctrlOk (ops.foldl applyOp c) := by
  intro ops
  induction ops with
  | nil => intro c hc _; simpa using hc
  | cons op rest ih =>
    intro c hc hops
    rw [List.foldl_cons]
    exact ih _ (applyOp_preserves c op hc (hops op (by simp)))
      (fun o ho => hops o (by simp [ho]))

/-! ## The claims -/

/-- C2. For every person or NPC holder whose starting inventory slots satisfy
the bounds, and for every sequence of `pickUpItem`, `dropItem` and
`craftItem` calls (each picked-up item having `1 ≤ amount ≤ stackLimit`),
after each call (the universal quantification over `ops` covers every prefix
of a call sequence): no slot exceeds its stack limit, `slots.length` stays
within `rows × columns`, every slot has `amount ≥ 1`, and every slot carries
exactly the ownership flag matching the holder kind. -/
theorem inventoryController_sequence_invariants
    (algorithm : String → AleaStream) (inventoryHolder : IInventoryHolder)
    (ops : List InvOp)
    (hstart1 : inventoryHolder.inventory.slots.length ≤
      inventoryHolder.inventory.rows * inventoryHolder.inventory.columns)
    (hstart2 : ∀ s ∈ inventoryHolder.inventory.slots,
      1 ≤ s.amount ∧ s.amount ≤ getMaxStackSize s.objectType ∧
        slotOwnershipOk (!inventoryHolder.path.isSome) inventoryHolder.path.isSome s)
    (hops : ∀ op ∈ ops, opOk op) :
    (ops.foldl applyOp (mkInventoryController algorithm inventoryHolder)).slots.length ≤
      (ops.foldl applyOp (mkInventoryController algorithm inventoryHolder)).numRows *
        (ops.foldl applyOp (mkInventoryController algorithm inventoryHolder)).numColumns ∧
    ∀ s ∈ (ops.foldl applyOp (mkInventoryController algorithm inventoryHolder)).slots,
      1 ≤ s.amount ∧ s.amount ≤ getMaxStackSize s.objectType ∧
        slotOwnershipOk
          (ops.foldl applyOp (mkInventoryController algorithm inventoryHolder)).isPerson
          (ops.foldl applyOp (mkInventoryController algorithm inventoryHolder)).isNpc s := by
  have hinit : ctrlOk (mkInventoryController algorithm inventoryHolder) :=
    ⟨rfl, rfl, hstart1, hstart2⟩
  have hfin := foldl_applyOp_preserves ops _ hinit hops
  refine ⟨?_, hfin.2.2.2⟩
  rw [← hfin.1]
  exact hfin.2.2.1

/-- Witness for C2: a pickup, a (failing) craft and a drop on the empty 1×10
person inventory. -/
theorem inventoryController_sequence_invariants_witness :
    (personEmptyHolder.inventory.slots.length ≤
      personEmptyHolder.inventory.rows * personEmptyHolder.inventory.columns) ∧
    (∀ s ∈ personEmptyHolder.inventory.slots,
      1 ≤ s.amount ∧ s.amount ≤ getMaxStackSize s.objectType ∧
        slotOwnershipOk (!personEmptyHolder.path.isSome) personEmptyHolder.path.isSome s) ∧
    (∀ op ∈ [InvOp.pickUp (stickItem 0) 0, InvOp.craft wattleRecipe 0,
        InvOp.drop (stickItem 0) 0], opOk op) ∧
    (([InvOp.pickUp (stickItem 0) 0, InvOp.craft wattleRecipe 0,
        InvOp.drop (stickItem 0) 0].foldl applyOp
        (mkInventoryController constAlgorithm personEmptyHolder)).slots.length ≤
      ([InvOp.pickUp (stickItem 0) 0, InvOp.craft wattleRecipe 0,
        InvOp.drop (stickItem 0) 0].foldl applyOp
        (mkInventoryController constAlgorithm personEmptyHolder)).numRows *
        ([InvOp.pickUp (stickItem 0) 0, InvOp.craft wattleRecipe 0,
          InvOp.drop (stickItem 0) 0].foldl applyOp
          (mkInventoryController constAlgorithm personEmptyHolder)).numColumns ∧
      ∀ s ∈ ([InvOp.pickUp (stickItem 0) 0, InvOp.craft wattleRecipe 0,
          InvOp.drop (stickItem 0) 0].foldl applyOp
          (mkInventoryController constAlgorithm personEmptyHolder)).slots,
        1 ≤ s.amount ∧ s.amount ≤ getMaxStackSize s.objectType ∧
          slotOwnershipOk
            (([InvOp.pickUp (stickItem 0) 0, InvOp.craft wattleRecipe 0,
              InvOp.drop (stickItem 0) 0].foldl applyOp
              (mkInventoryController constAlgorithm personEmptyHolder)).isPerson)
            (([InvOp.pickUp (stickItem 0) 0, InvOp.craft wattleRecipe 0,
              InvOp.drop (stickItem 0) 0].foldl applyOp
              (mkInventoryController constAlgorithm personEmptyHolder)).isNpc) s) := by
  refine ⟨by decide, ?_, ?_, ?_⟩
  · intro s hs
    cases hs
  · intro op hop
    fin_cases hop
    · exact ⟨by decide, by decide⟩
    · trivial
    · trivial
  · refine inventoryController_sequence_invariants constAlgorithm personEmptyHolder
      _ (by decide) (by intro s hs; cases hs) ?_
    intro op hop
    fin_cases hop
    · exact ⟨by decide, by decide⟩
    · trivial
    · trivial

/-- C3. `pickUpItem` merges the item into the first stackable slot (no
`updatedItem`, merged slot reported in `stackableSlots`); with no stackable
slot and spare capacity it appends the item with ownership flags set and
returns it as `updatedItem`; with no stackable slot and a full inventory it
fails with `"Not enough room for item"`. In particular 101 sticks of amount 1
into an empty 1×10 inventory: the first 100 succeed, the 101st throws. -/
theorem pickUpItem_policy :
    (∀ (c : InventoryController) (item : INetworkObject) (now : Int)
        (pre : List INetworkObject) (s : INetworkObject) (post : List INetworkObject),
      c.slots = pre ++ s :: post →
      (∀ p ∈ pre, InventoryController.stackableWith item p = false) →
      InventoryController.stackableWith item s = true →
      c.pickUpItem item now =
        (.ok ⟨none, [InventoryController.mergedSlot c item s now], [], []⟩,
          { c with
            slots := List.map
                (fun t =>
                  if t.id == s.id then InventoryController.mergedSlot c item s now else t)
                (c.slots.filter (fun t => t.id != item.id)) })) ∧
    (∀ (c : InventoryController) (item : INetworkObject) (now : Int),
      (∀ s ∈ c.slots, InventoryController.stackableWith item s = false) →
      c.slots.length < c.numMaxSlots →
      c.pickUpItem item now =
        (.ok ⟨some (InventoryController.appendedItem c item now), [], [], []⟩,
          { c with slots := c.slots.filter (fun t => t.id != item.id) ++
              [InventoryController.appendedItem c item now] })) ∧
    (∀ (c : InventoryController) (item : INetworkObject) (now : Int),
      (∀ s ∈ c.slots, InventoryController.stackableWith item s = false) →
      ¬ c.slots.length < c.numMaxSlots →
      c.pickUpItem item now = (.error "Not enough room for item", c)) ∧
    pickUpAllErr (mkInventoryController constAlgorithm personEmptyHolder)
      (sticksList 100) = none ∧
    pickUpAllErr (mkInventoryController constAlgorithm personEmptyHolder)
      (sticksList 101) = some "Not enough room for item" := by
  refine ⟨?_, ?_, ?_, by decide, by decide⟩
  · intro c item now pre s post hc hpre hs
    have hfind : c.slots.find? (InventoryController.stackableWith item) = some s := by
      rw [hc]
      exact find?_of_prefix _ pre s post hpre hs
    show c.pickUpItemInternal item c.slots now = _
    rw [InventoryController.pickUpItemInternal_merge c item c.slots now s hfind,
      InventoryController.merge_slots_map]
  · intro c item now hall hlen
    have hfind : c.slots.find? (InventoryController.stackableWith item) = none :=
      List.find?_eq_none.mpr (fun x hx => by simp [hall x hx])
    show c.pickUpItemInternal item c.slots now = _
    rw [InventoryController.pickUpItemInternal_append c item c.slots now hfind hlen]
  · intro c item now hall hlen
    have hfind : c.slots.find? (InventoryController.stackableWith item) = none :=
      List.find?_eq_none.mpr (fun x hx => by simp [hall x hx])
    show c.pickUpItemInternal item c.slots now = _
    rw [InventoryController.pickUpItemInternal_full c item c.slots now hfind hlen]

/-- Witness for C3: the append branch on the empty person inventory. -/
theorem pickUpItem_policy_witness :
    (∀ s ∈ (mkInventoryController constAlgorithm personEmptyHolder).slots,
      InventoryController.stackableWith (stickItem 0) s = false) ∧
    (mkInventoryController constAlgorithm personEmptyHolder).slots.length <
      (mkInventoryController constAlgorithm personEmptyHolder).numMaxSlots ∧
    (mkInventoryController constAlgorithm personEmptyHolder).pickUpItem (stickItem 0) 0 =
      (.ok ⟨some (InventoryController.appendedItem
          (mkInventoryController constAlgorithm personEmptyHolder) (stickItem 0) 0),
          [], [], []⟩,
        { mkInventoryController constAlgorithm personEmptyHolder with
          slots := (mkInventoryController constAlgorithm personEmptyHolder).slots.filter
              (fun t => t.id != (stickItem 0).id) ++
            [InventoryController.appendedItem
              (mkInventoryController constAlgorithm personEmptyHolder) (stickItem 0) 0] }) :=
  ⟨by decide, by decide,
    pickUpItem_policy.2.1 (mkInventoryController constAlgorithm personEmptyHolder)
      (stickItem 0) 0 (by decide) (by decide)⟩

/-- C4 (amended). A `craftItem` failure at the materials stage throws
`"Not enough materials for crafting"` and leaves the controller — slots and
crafting RNG included — exactly as it was; once the materials stage succeeds
the crafting RNG advances by exactly one draw whether or not the subsequent
pickup of the product succeeds; and any failed craft leaves the holder's
slots untouched. (The original claim — the RNG advances only when the whole
craft succeeds — is refuted by `craftItem_rng_advances_on_pickup_failure`.) -/
theorem craftItem_failure_atomicity (c : InventoryController)
    (recipe : ICraftingRecipe) (now : Int) :
    (∀ e, InventoryController.getSlotsAfterCraftingMaterials c recipe now = .error e →
      e = "Not enough materials for crafting" ∧
      c.craftItem recipe now = (.error "Not enough materials for crafting", c)) ∧
    (∀ ct, InventoryController.getSlotsAfterCraftingMaterials c recipe now = .ok ct →
      (c.craftItem recipe now).2.rng.pos = c.rng.pos + 1 ∧
      (c.craftItem recipe now).2.rng.stream = c.rng.stream) ∧
    (∀ e, (c.craftItem recipe now).1 = .error e →
      (c.craftItem recipe now).2.slots = c.slots) := by
  refine ⟨?_, ?_, ?_⟩
  · intro e hg
    have he := getSlotsAfter_error c recipe now e hg
    subst he
    refine ⟨rfl, ?_⟩
    unfold InventoryController.craftItem
    rw [hg]
  · intro ct hg
    rw [craftItem_snd_ok c recipe now ct hg,
      InventoryController.pickUpItemInternal_rng, createItemType_snd]
    exact ⟨rfl, rfl⟩
  · intro e herr
    cases hg : InventoryController.getSlotsAfterCraftingMaterials c recipe now with
    | error e' =>
      have : (c.craftItem recipe now).2 = c := by
        unfold InventoryController.craftItem
        rw [hg]
      rw [this]
    | ok ct =>
      rw [craftItem_snd_ok c recipe now ct hg]
      have herr2 : (((c.createItemType recipe.product now).2).pickUpItemInternal
          (c.createItemType recipe.product now).1 ct.newSlots now).1 = .error e := by
        cases hres : ((c.createItemType recipe.product now).2).pickUpItemInternal
            (c.createItemType recipe.product now).1 ct.newSlots now with
        | mk r1 c2 =>
          cases r1 with
          | error e' =>
            have hh : (c.craftItem recipe now).1 = .error e' := by
              unfold InventoryController.craftItem
              rw [hg]
              simp [hres]
            rw [hh] at herr
            simp only [Except.error.injEq] at herr
            simp [herr]
          | ok t =>
            have hh : (c.craftItem recipe now).1 = .ok
                { t with
                  deletedSlots := ct.deletedSlots
                  modifiedSlots := ct.modifiedSlots } := by
              unfold InventoryController.craftItem
              rw [hg]
              simp [hres]
            rw [hh] at herr
            exact absurd herr (by simp)
      rw [InventoryController.pickUpItemInternal_error _ _ _ _ e herr2,
        createItemType_snd]

/-- Witness for C4: the 9-stick wattle craft fails atomically, and a craft
that fails only at the pickup stage (1×1 inventory) still advances the RNG
while leaving the slots alone. -/
theorem craftItem_failure_atomicity_witness :
    (mkInventoryController constAlgorithm personNineSticksHolder).craftItem
        wattleRecipe 0 =
      (.error "Not enough materials for crafting",
        mkInventoryController constAlgorithm personNineSticksHolder) ∧
    ((mkInventoryController constAlgorithm personOneSlotHolder).craftItem
        fiveStickWallRecipe 0).2.rng.pos =
      (mkInventoryController constAlgorithm personOneSlotHolder).rng.pos + 1 ∧
    ((mkInventoryController constAlgorithm personOneSlotHolder).craftItem
        fiveStickWallRecipe 0).2.slots =
      (mkInventoryController constAlgorithm personOneSlotHolder).slots := by
  refine ⟨((craftItem_failure_atomicity
      (mkInventoryController constAlgorithm personNineSticksHolder)
      wattleRecipe 0).1 "Not enough materials for crafting" (by decide)).2, ?_, ?_⟩
  · exact ((craftItem_failure_atomicity
      (mkInventoryController constAlgorithm personOneSlotHolder)
      fiveStickWallRecipe 0).2.1
      ⟨[{ heldStickStack with amount := 5 }], [],
        [{ heldStickStack with amount := 5 }]⟩ (by decide)).1
  · exact (craftItem_failure_atomicity
      (mkInventoryController constAlgorithm personOneSlotHolder)
      fiveStickWallRecipe 0).2.2 "Not enough room for item" (by decide)

/-- Counterexample to the original C4 reading: crafting WATTLE_WALL from a
full 10-stick stack in a 1×1 inventory passes the materials stage, then the
product pickup throws `"Not enough room for item"` — the craft failed, yet
the crafting RNG position moved from 0 to 1. -/
theorem craftItem_rng_advances_on_pickup_failure :
    ((mkInventoryController constAlgorithm personOneSlotHolder).craftItem
        fiveStickWallRecipe 0).1 = .error "Not enough room for item" ∧
    (mkInventoryController constAlgorithm personOneSlotHolder).rng.pos = 0 ∧
    ((mkInventoryController constAlgorithm personOneSlotHolder).craftItem
        fiveStickWallRecipe 0).2.rng.pos = 1 :=
  ⟨by decide, by decide, by decide⟩

/-- C5 (code bug). Picking up an item whose id is already the only slot of
the inventory does not behave as a no-op stack-merge: `pickUpItemInternal`
finds the slot stackable, removes the id-duplicate from the slot list, and
then rebuilds the merged slot only at positions matching `s.id` in the
already-filtered list — so the inventory ends up empty and the item is lost,
while the returned transaction still reports a merged slot of amount 2. -/
theorem pickUpItem_duplicate_id_loses_item :
    ((mkInventoryController constAlgorithm personWithOneStickHolder).pickUpItem
        heldStick 0).2.slots = [] ∧
    ((mkInventoryController constAlgorithm personWithOneStickHolder).pickUpItem
        heldStick 0).1 =
      .ok ⟨none, [{ heldStick with amount := 2 }], [], []⟩ :=
  ⟨by decide, by decide⟩

/-! ## Helper lemmas: the cell planner's craft dispatch -/

lemma findAndWithdraw_empty (c : CellController) (ev : ISimulationEvent)
    (i : Nat) (recipe : ICraftingRecipe) (n : Nat) (now : Int)
    (hstock : c.state.stockpiles = []) :
    CellController.findAndWithdrawFromStockpile c ev i recipe n now =
      .ok (false, ev, { c with state := { c.state with stockpiles := [] } }) := by
  unfold CellController.findAndWithdrawFromStockpile
  rw [hstock]
  dsimp only [jsSortBy, List.foldl_nil, CellController.findIndexAndValue, jsFindIndex]

lemma npcGoHome_noHouse (c : CellController) (ev : ISimulationEvent) (i : Nat)
    (hhouse : JsMap.get c.houses ev.data.id = none) :
    CellController.npcGoHome c ev i =
      .error "Could not find a house for the NPC to go home to" := by
  unfold CellController.npcGoHome
  rw [hhouse]

lemma handleCraftJob_noRecipe (c : CellController) (ev : ISimulationEvent)
    (i : Nat) (now : Int) (product : ENetworkObjectType)
    (hinv : CellController.hasItemInInventory ev.data.inventory = false)
    (hchoice : handleCraftJobProductChoice ev.data.job.products
      (c.mathRandom c.mathRandomPos) = some product)
    (hfind : listOfRecipes.find? (fun r => r.product == product) = none) :
    CellController.handleCraftJob c ev i now =
      .ok { c with mathRandomPos := c.mathRandomPos + 1 } := by
  unfold CellController.handleCraftJob
  dsimp only [CellController.nextMathRandom]
  simp only [hinv, Bool.false_eq_true, if_false]
  rw [hchoice]
  dsimp only
  rw [hfind]

lemma handleCraftJob_noHouse (c : CellController) (ev : ISimulationEvent)
    (i : Nat) (now : Int) (product : ENetworkObjectType)
    (recipe : ICraftingRecipe)
    (hinv : CellController.hasItemInInventory ev.data.inventory = false)
    (hchoice : handleCraftJobProductChoice ev.data.job.products
      (c.mathRandom c.mathRandomPos) = some product)
    (hfind : listOfRecipes.find? (fun r => r.product == product) = some recipe)
    (hstock : c.state.stockpiles = [])
    (hhouse : JsMap.get c.houses ev.data.id = none) :
    CellController.handleCraftJob c ev i now =
      .error "Could not find a house for the NPC to go home to" := by
  unfold CellController.handleCraftJob
  dsimp only [CellController.nextMathRandom]
  simp only [hinv, Bool.false_eq_true, if_false]
  rw [hchoice]
  dsimp only
  rw [hfind]
  dsimp only
  rw [findAndWithdraw_empty _ ev i recipe _ now (by exact hstock)]
  dsimp only [Bool.not_false, if_true]
  rw [npcGoHome_noHouse _ ev i (by exact hhouse)]
  simp

lemma c1_run_shape (f : Nat → ℚ) :
    CellController.run (CellController.make constAlgorithm f c1Params 0) 1000 0 1 =
      match CellController.dispatchNpc (c1S f) c1Ev 0 0 with
      | .error e => some (.error e)
      | .ok _ => none :=
  rfl

lemma c1_choice_zero :
    handleCraftJobProductChoice c1Ev.data.job.products
      ((c1S (fun _ => 0)).mathRandom (c1S (fun _ => 0)).mathRandomPos) =
      some .WATTLE_WALL := by
  show handleCraftJobProductChoice [.WATTLE_WALL, .BOX] 0 = some .WATTLE_WALL
  unfold handleCraftJobProductChoice
  norm_num [List.get?]

lemma c1_choice_half :
    handleCraftJobProductChoice c1Ev.data.job.products
      ((c1S (fun _ => 1/2)).mathRandom (c1S (fun _ => 1/2)).mathRandomPos) =
      some .BOX := by
  show handleCraftJobProductChoice [.WATTLE_WALL, .BOX] (1/2) = some .BOX
  unfold handleCraftJobProductChoice
  norm_num [List.get?]

/-- C1 (code bug). Determinism fails: the planner input `c1Params` (one
craft npc), the seeding algorithm, the wall clock and the horizon are all
identical, yet the two runs differ — the run outcome depends on the ambient
`Math.random()` stream consumed by `handleCraftJob`
(`src/npc.ts` line 2036), which is not part of the planner input. With
draws of 0 the npc picks WATTLE_WALL, finds no stockpile and throws while
walking home; with draws of 1/2 it picks BOX, which has no recipe, so the
dispatch is a no-op and the clock never advances. -/
theorem cellController_run_depends_on_math_random :
    CellController.run (CellController.make constAlgorithm (fun _ => 0) c1Params 0)
        1000 0 1 =
      some (.error "Could not find a house for the NPC to go home to") ∧
    CellController.run (CellController.make constAlgorithm (fun _ => 1/2) c1Params 0)
        1000 0 1 = none ∧
    CellController.run (CellController.make constAlgorithm (fun _ => 0) c1Params 0)
        1000 0 1 ≠
      CellController.run (CellController.make constAlgorithm (fun _ => 1/2) c1Params 0)
        1000 0 1 := by
  have hdisp0 : CellController.dispatchNpc (c1S (fun _ => 0)) c1Ev 0 0 =
      .error "Could not find a house for the NPC to go home to" := by
    show CellController.handleCraftJob (c1S (fun _ => 0)) c1Ev 0 0 = _
    exact handleCraftJob_noHouse _ _ _ _ .WATTLE_WALL wattleRecipe (by decide)
      c1_choice_zero rfl rfl rfl
  have hdisp1 : CellController.dispatchNpc (c1S (fun _ => 1/2)) c1Ev 0 0 =
      .ok { c1S (fun _ => 1/2) with
        mathRandomPos := (c1S (fun _ => 1/2)).mathRandomPos + 1 } := by
    show CellController.handleCraftJob (c1S (fun _ => 1/2)) c1Ev 0 0 = _
    exact handleCraftJob_noRecipe _ _ _ _ .BOX (by decide) c1_choice_half rfl
  have h0 : CellController.run
      (CellController.make constAlgorithm (fun _ => 0) c1Params 0) 1000 0 1 =
      some (.error "Could not find a house for the NPC to go home to") := by
    rw [c1_run_shape, hdisp0]
  have h1 : CellController.run
      (CellController.make constAlgorithm (fun _ => 1/2) c1Params 0) 1000 0 1 =
      none := by
    rw [c1_run_shape, hdisp1]
  refine ⟨h0, h1, ?_⟩
  rw [h0, h1]
  simp

lemma c9_step (pos : Nat) (fuel : Nat) :
    CellController.runLoop 60000 0 (fuel + 1) (emptyCraftLoopState pos) =
      CellController.runLoop 60000 0 fuel (emptyCraftLoopState (pos + 1)) :=
  rfl

lemma c9_none : ∀ (fuel pos : Nat),
    CellController.runLoop 60000 0 fuel (emptyCraftLoopState pos) = none := by
  intro fuel
  induction fuel with
  | zero => intro pos; rfl
  | succ n ih =>
    intro pos
    rw [c9_step]
    exact ih (pos + 1)

/-- C9 (code bug). `run` does not terminate for every input: on a single
CRAFT npc whose `products` list is empty (with no stockpiles and an empty
inventory), every loop iteration dispatches the npc, draws one `Math.random`
value, finds no product to craft and returns with the npc, its ready time
and the simulation clock all unchanged — so the loop never reaches the
horizon: the fuelled loop returns `none` (no exit) for every fuel. -/
theorem cellController_run_nonterminating (fuel : Nat) :
    CellController.run emptyCraftController 60000 0 fuel = none := by
  show CellController.runLoop 60000 0 fuel
    (CellController.setupState emptyCraftController 0) = none
  have h : CellController.setupState emptyCraftController 0 = emptyCraftLoopState 0 :=
    rfl
  rw [h]
  exact c9_none fuel 0

/-! ## Helper lemmas: `getState` and `Except`-monadic mapping -/

lemma mapM_eq_exMapM {α β : Type} (f : α → Except String β) :
    ∀ l : List α, List.mapM f l = exMapM f l := by
  intro l
  induction l with
  | nil => rfl
  | cons a l ih =>
    rw [List.mapM_cons, ih]
    cases hfa : f a with
    | error e =>
      simp only [exMapM, hfa]
      rfl
    | ok b =>
      cases hrest : exMapM f l with
      | error e =>
        simp only [exMapM, hfa, hrest]
        rfl
      | ok bs =>
        simp only [exMapM, hfa, hrest]
        rfl

lemma exMapM_isOk_iff {α β : Type} (f : α → Except String β) :
    ∀ l : List α, (∃ bs, exMapM f l = .ok bs) ↔ ∀ a ∈ l, ∃ b, f a = .ok b := by
  intro l
  induction l with
  | nil => simp [exMapM]
  | cons a l ih =>
    constructor
    · rintro ⟨bs, hbs⟩
      unfold exMapM at hbs
      cases hfa : f a with
      | error e => rw [hfa] at hbs; cases hbs
      | ok b =>
        rw [hfa] at hbs
        cases hrest : exMapM f l with
        | error e => rw [hrest] at hbs; cases hbs
        | ok bs' =>
          intro x hx
          rcases List.mem_cons.mp hx with rfl | hx'
          · exact ⟨b, hfa⟩
          · exact (ih.mp ⟨bs', hrest⟩) x hx'
    · intro hall
      obtain ⟨b, hb⟩ := hall a (by simp)
      obtain ⟨bs, hbs⟩ := ih.mpr (fun x hx => hall x (by simp [hx]))
      exact ⟨b :: bs, by unfold exMapM; rw [hb, hbs]⟩

lemma exMapM_error_unique {α β : Type} (f : α → Except String β) (msg : String)
    (hmsg : ∀ a e, f a = .error e → e = msg) :
    ∀ l : List α, exMapM f l = .error msg ↔ ∃ a ∈ l, f a = .error msg := by
  intro l
  induction l with
  | nil => simp [exMapM]
  | cons a l ih =>
    unfold exMapM
    cases hfa : f a with
    | error e =>
      have he := hmsg a e hfa
      subst he
      exact ⟨fun _ => ⟨a, by simp, hfa⟩, fun _ => rfl⟩
    | ok b =>
      cases hrest : exMapM f l with
      | error e =>
        constructor
        · intro h
          rw [Except.error.injEq] at h
          subst h
          obtain ⟨x, hx, hfx⟩ := ih.mp hrest
          exact ⟨x, by simp [hx], hfx⟩
        · rintro ⟨x, hx, hfx⟩
          rcases List.mem_cons.mp hx with rfl | hx'
          · rw [hfa] at hfx; cases hfx
          · rw [Except.error.injEq]
            have := ih.mpr ⟨x, hx', hfx⟩
            rw [this] at hrest
            rw [Except.error.injEq] at hrest
            exact hrest.symm
      | ok bs =>
        constructor
        · intro h; cases h
        · rintro ⟨x, hx, hfx⟩
          rcases List.mem_cons.mp hx with rfl | hx'
          · rw [hfa] at hfx; cases hfx
          · have hall := (exMapM_isOk_iff f l).mp ⟨bs, hrest⟩
            obtain ⟨b', hb'⟩ := hall x hx'
            rw [hb'] at hfx
            cases hfx

lemma except_bind_ok {β γ : Type} (b : β) (k : β → Except String γ) :
    (Except.ok b >>= k) = k b :=
  rfl

lemma except_bind_ok_error {β γ : Type} (x : Except String β) (k : β → γ)
    (msg : String) :
    ((x >>= fun b => Except.ok (k b)) = Except.error msg) ↔ x = Except.error msg := by
  cases x with
  | error e =>
    constructor
    · intro h
      have h' : (Except.error e : Except String γ) = Except.error msg := h
      rw [Except.error.injEq] at h'
      rw [h']
    · intro h
      rw [Except.error.injEq] at h
      subst h
      rfl
  | ok b =>
    constructor
    · intro h; cases h
    · intro h; cases h

lemma getState_stage1_ok (c : CellController) (now : Int)
    (hnpcs : ∀ ev ∈ c.state.npcs, (JsMap.get c.npcs ev.data.id).isSome = true) :
    ∃ bs, exMapM (fun npcEvent =>
      match JsMap.get c.npcs npcEvent.data.id with
      | none => .error "Cannot find initial copy of npc"
      | some npc =>
        let path := CellController.getStateNpcPath npc.path npcEvent.data.path c.startTime
        let relevantNpcInventoryEvents :=
          (JsMap.get c.state.npcInventoryEvents npc.id).getD []
        let inventoryState := relevantNpcInventoryEvents.map (fun event => event.state)
        .ok { npc with path := path, inventoryState := inventoryState, lastUpdate := now })
      c.state.npcs = .ok bs := by
  rw [exMapM_isOk_iff]
  intro ev hev
  obtain ⟨npc, hget⟩ := Option.isSome_iff_exists.mp (hnpcs ev hev)
  exact ⟨_, by rw [hget]⟩

lemma getState_stage2_ok (c : CellController) (now : Int)
    (hstocks : ∀ s ∈ c.state.stockpiles, (JsMap.get c.stockpiles s.id).isSome = true) :
    ∃ bs, exMapM (fun stockpile =>
      match JsMap.get c.stockpiles stockpile.id with
      | none => .error "Cannot find initial stockpile"
      | some initialStockpile =>
        let relevantInventoryEvents :=
          (JsMap.get c.state.stockpileInventoryEvents stockpile.id).getD []
        let inventoryState := jsSortBy
          (fun a b => decide (a.time ≤ b.time))
          (initialStockpile.inventoryState.filter (fun event => decide (event.time > now)) ++
            relevantInventoryEvents.map (fun event => event.state))
        .ok { initialStockpile with inventoryState := inventoryState, lastUpdate := now })
      c.state.stockpiles = .ok bs := by
  rw [exMapM_isOk_iff]
  intro s hs
  obtain ⟨sp, hget⟩ := Option.isSome_iff_exists.mp (hstocks s hs)
  exact ⟨_, by rw [hget]⟩

lemma getState_stage3_ok (c : CellController) (now : Int)
    (hres : ∀ r ∈ c.state.resources, (JsMap.get c.resources r.id).isSome = true) :
    ∃ bs, exMapM (fun resource =>
      let state := ((JsMap.get c.state.resourceEvents resource.id).getD []).map
        (fun resourceEvent =>
          ({ time := resourceEvent.time, state := resourceEvent.state } : IResourceState))
      match JsMap.get c.resources resource.id with
      | some initialResourceCopy =>
        .ok { initialResourceCopy with state := state, lastUpdate := now }
      | none => .error "Could not find initial resource")
      c.state.resources = .ok bs := by
  rw [exMapM_isOk_iff]
  intro r hr
  obtain ⟨res, hget⟩ := Option.isSome_iff_exists.mp (hres r hr)
  exact ⟨_, by dsimp only; rw [hget]⟩

lemma getState_stage4_ok (c : CellController) (now : Int)
    (hspawns : ∀ sp ∈ c.state.spawns,
      ((JsMap.get c.state.networkObjectEvents sp.spawn.id).getD []).map
        (fun e => e.state) ≠ []) :
    ∃ bs, exMapM (fun spawnEvent =>
      let state := ((JsMap.get c.state.networkObjectEvents spawnEvent.spawn.id).getD []).map
        (fun e => e.state)
      if state.length = 0 then .error "Spawn Object Empty State"
      else .ok { spawnEvent.spawn with state := state })
      c.state.spawns = .ok bs := by
  rw [exMapM_isOk_iff]
  intro sp hsp
  have hlen : ¬ (((JsMap.get c.state.networkObjectEvents sp.spawn.id).getD []).map
      (fun e => e.state)).length = 0 := by
    intro h
    exact hspawns sp hsp (List.length_eq_zero.mp h)
  exact ⟨_, by dsimp only; rw [if_neg hlen]⟩

lemma getState_stage5 (c : CellController) (now : Int) :
    exMapM (fun obj =>
      let objectEvents := (JsMap.get c.state.networkObjectEvents obj.id).getD []
      let state :=
        obj.state.filter (fun s => decide (s.time > c.startTime)) ++
          objectEvents.map (fun event => event.state)
      if state.length = 0 then .error "Modified Object Empty State"
      else
        .ok { applyStateToNetworkObject obj now with state := state, lastUpdate := now })
      (JsMap.values c.objects) = .error "Modified Object Empty State" ↔
      ∃ obj ∈ JsMap.values c.objects,
        obj.state.filter (fun s => decide (s.time > c.startTime)) = [] ∧
        (JsMap.get c.state.networkObjectEvents obj.id).getD [] = [] := by
  rw [exMapM_error_unique]
  · constructor
    · rintro ⟨obj, hmem, hobj⟩
      dsimp only at hobj
      by_cases hlen : (obj.state.filter (fun s => decide (s.time > c.startTime)) ++
          ((JsMap.get c.state.networkObjectEvents obj.id).getD []).map
            (fun event => event.state)).length = 0
      · rw [List.length_append] at hlen
        have h1 : obj.state.filter (fun s => decide (s.time > c.startTime)) = [] :=
          List.length_eq_zero.mp (by omega)
        have h2 : ((JsMap.get c.state.networkObjectEvents obj.id).getD []).map
            (fun event => event.state) = [] :=
          List.length_eq_zero.mp (by omega)
        exact ⟨obj, hmem, h1, List.map_eq_nil_iff.mp h2⟩
      · rw [if_neg hlen] at hobj
        cases hobj
    · rintro ⟨obj, hmem, h1, h2⟩
      refine ⟨obj, hmem, ?_⟩
      dsimp only
      rw [if_pos]
      rw [h1, h2]
      rfl
  · intro a e h
    dsimp only at h
    by_cases hlen : (a.state.filter (fun s => decide (s.time > c.startTime)) ++
        ((JsMap.get c.state.networkObjectEvents a.id).getD []).map
          (fun event => event.state)).length = 0
    · rw [if_pos hlen] at h
      rw [Except.error.injEq] at h
      exact h.symm
    · rw [if_neg hlen] at h
      cases h

/-- C10. `getState` throws `"Modified Object Empty State"` exactly when some
pre-existing input object received no network-object events during the run
and has no stored state entries with `time > startTime` — provided the
earlier assembly stages cannot throw first (every simulated npc, stockpile
and resource has its initial copy, and every spawn received an event). A
successful planner run therefore requires every input loose object to carry
or receive at least one state entry. -/
theorem getState_modified_object_empty_state (c : CellController) (now : Int)
    (hnpcs : ∀ ev ∈ c.state.npcs, (JsMap.get c.npcs ev.data.id).isSome = true)
    (hstocks : ∀ s ∈ c.state.stockpiles, (JsMap.get c.stockpiles s.id).isSome = true)
    (hres : ∀ r ∈ c.state.resources, (JsMap.get c.resources r.id).isSome = true)
    (hspawns : ∀ sp ∈ c.state.spawns,
      ((JsMap.get c.state.networkObjectEvents sp.spawn.id).getD []).map
        (fun e => e.state) ≠ []) :
    CellController.getState c now = .error "Modified Object Empty State" ↔
      ∃ obj ∈ JsMap.values c.objects,
        obj.state.filter (fun s => decide (s.time > c.startTime)) = [] ∧
        (JsMap.get c.state.networkObjectEvents obj.id).getD [] = [] := by
  unfold CellController.getState
  simp only [mapM_eq_exMapM]
  obtain ⟨v1, hv1⟩ := getState_stage1_ok c now hnpcs
  rw [hv1, except_bind_ok]
  obtain ⟨v2, hv2⟩ := getState_stage2_ok c now hstocks
  rw [hv2, except_bind_ok]
  obtain ⟨v3, hv3⟩ := getState_stage3_ok c now hres
  rw [hv3, except_bind_ok]
  obtain ⟨v4, hv4⟩ := getState_stage4_ok c now hspawns
  rw [hv4, except_bind_ok]
  rw [except_bind_ok_error]
  exact getState_stage5 c now

/-- Witness for C10: the planner whose only input is a loose BOX with an
empty state timeline; with no npcs there are no events, so `getState`
throws. -/
theorem getState_modified_object_empty_state_witness :
    (∀ ev ∈ statelessBoxController.state.npcs,
      (JsMap.get statelessBoxController.npcs ev.data.id).isSome = true) ∧
    (∀ s ∈ statelessBoxController.state.stockpiles,
      (JsMap.get statelessBoxController.stockpiles s.id).isSome = true) ∧
    (∀ r ∈ statelessBoxController.state.resources,
      (JsMap.get statelessBoxController.resources r.id).isSome = true) ∧
    (∀ sp ∈ statelessBoxController.state.spawns,
      ((JsMap.get statelessBoxController.state.networkObjectEvents sp.spawn.id).getD []).map
        (fun e => e.state) ≠ []) ∧
    CellController.getState statelessBoxController 0 =
      .error "Modified Object Empty State" := by
  refine ⟨?_, ?_, ?_, ?_, ?_⟩
  · intro ev hev; cases hev
  · intro s hs; cases hs
  · intro r hr; cases hr
  · intro sp hsp; cases hsp
  · refine (getState_modified_object_empty_state statelessBoxController 0
      (by intro ev hev; cases hev) (by intro s hs; cases hs)
      (by intro r hr; cases hr) (by intro sp hsp; cases hsp)).mpr ?_
    exact ⟨statelessBox, by decide, by decide, by decide⟩

/-! ## Helper lemmas: the `getState` npc path splice -/

lemma jsFindIndex_spec {α : Type} (p : α → Bool) :
    ∀ (l : List α) (i : Nat), jsFindIndex p l = some i →
      ∃ pre x post, l = pre ++ x :: post ∧ pre.length = i ∧ p x = true ∧
        ∀ y ∈ pre, p y = false := by
  intro l
  induction l with
  | nil => intro i h; cases h
  | cons a t ih =>
    intro i h
    unfold jsFindIndex at h
    by_cases hpa : p a = true
    · rw [if_pos hpa] at h
      rw [Option.some.injEq] at h
      exact ⟨[], a, t, rfl, h, hpa, by intro y hy; cases hy⟩
    · rw [if_neg hpa] at h
      cases hj : jsFindIndex p t with
      | none => rw [hj] at h; cases h
      | some j =>
        rw [hj] at h
        have h' : j + 1 = i := by simpa using h
        obtain ⟨pre, x, post, hl, hlen, hx, hpre⟩ := ih j hj
        refine ⟨a :: pre, x, post, by simp [hl], by simp [hlen, h'], hx, ?_⟩
        intro y hy
        rcases List.mem_cons.mp hy with rfl | hy'
        · exact Bool.not_eq_true _ ▸ (Bool.eq_false_iff.mpr (fun hc => hpa hc))
        · exact hpre y hy'

/-- C8 (amended). The output npc path of `getState` is built from the npc's
simulated path `npcEvent.data.path`, which is not merely the newly scheduled
points: `internalApplyPathToNpc` leaves a path untouched until its first
point's time has passed (first conjunct), so a not-yet-started original path
survives inside the simulated path. The splice itself (second conjunct),
under an original path sorted ascending by time, either passes the simulated
path through unchanged — when no original point is at or after `startTime`,
or when the very first one already is — or keeps exactly one original point
from strictly before `startTime` followed by all the original points at or
after `startTime` and then the simulated path. (The original claim fails
only in its "no pre-`startTime` point is ever retained" part:
`getStateNpcPath_keeps_pre_start_point`.) -/
theorem getStateNpcPath_splice (origPath simPath : List INpcPathPoint) (st : Int)
    (hsorted : origPath.Pairwise (fun a b => a.time ≤ b.time)) :
    (∀ (npc : INpc) (now : Int) (p0 : INpcPathPoint) (pr : List INpcPathPoint),
      npc.path = p0 :: pr → ¬ now > p0.time →
      internalApplyPathToNpc npc now = npc) ∧
    (CellController.getStateNpcPath origPath simPath st = simPath ∨
     ∃ p ∈ origPath, p.time < st ∧
       CellController.getStateNpcPath origPath simPath st =
         p :: (origPath.filter (fun q => decide (q.time ≥ st)) ++ simPath)) := by
  constructor
  · intro npc now p0 pr hpath hnot
    unfold internalApplyPathToNpc
    rw [hpath]
    dsimp only [List.head?]
    rw [if_neg hnot]
  unfold CellController.getStateNpcPath
  cases hfi : jsFindIndex (fun p => decide (p.time ≥ st)) origPath with
  | none => exact Or.inl rfl
  | some i =>
    cases i with
    | zero => exact Or.inl rfl
    | succ k =>
      right
      obtain ⟨pre, x, post, hl, hlen, hx, hpre⟩ :=
        jsFindIndex_spec _ origPath (k + 1) hfi
      rcases List.eq_nil_or_concat pre with rfl | ⟨init, q, rfl⟩
      · cases hlen
      · rw [List.concat_eq_append] at hl hlen hpre
        have hq : decide (q.time ≥ st) = false := hpre q (by simp)
        have hqlt : q.time < st := lt_of_not_ge (of_decide_eq_false hq)
        have hinit : init.length = k := by
          rw [List.length_append, List.length_singleton] at hlen
          omega
        have hassoc : (init ++ [q]) ++ x :: post = init ++ (q :: x :: post) := by
          simp
        have hdrop : origPath.drop k = q :: x :: post := by
          rw [hl, hassoc, ← hinit, List.drop_left]
        have hxst : st ≤ x.time := of_decide_eq_true hx
        have hpost : ∀ y ∈ post, x.time ≤ y.time := by
          rw [hl] at hsorted
          have h2 := (List.pairwise_append.mp hsorted).2.1
          exact (List.pairwise_cons.mp h2).1
        have hfilter : origPath.filter (fun r => decide (r.time ≥ st)) = x :: post := by
          rw [hl, hassoc, List.filter_append]
          have hinitf : init.filter (fun r => decide (r.time ≥ st)) = [] := by
            rw [List.filter_eq_nil_iff]
            intro y hy
            have := hpre y (by simp [hy])
            simp only [this]
            exact Bool.false_ne_true
          rw [hinitf]
          have : (q :: x :: post).filter (fun r => decide (r.time ≥ st)) = x :: post := by
            rw [List.filter_cons_of_neg (by simp [hq]), List.filter_cons_of_pos (by simp [hx])]
            rw [List.filter_eq_self.mpr]
            intro y hy
            simp only [decide_eq_true_eq]
            exact le_trans hxst (hpost y hy)
          rw [this]
          rfl
        refine ⟨q, by rw [hl]; simp, hqlt, ?_⟩
        have hk1 : k + 1 - 1 = k := rfl
        show List.drop (k + 1 - 1) origPath ++ simPath =
          q :: (List.filter (fun r => decide (r.time ≥ st)) origPath ++ simPath)
        rw [hk1, hdrop, hfilter]
        rfl

/-- Counterexample to the original C8 reading: with original path points at
times 0 and 10 and `startTime = 5`, the spliced path keeps the point at time
0 — a path point strictly before `startTime` is retained in the output. -/
theorem getStateNpcPath_keeps_pre_start_point :
    CellController.getStateNpcPath cxOrigPath [] 5 =
      [⟨0, ⟨0, 0⟩⟩, ⟨10, ⟨1, 1⟩⟩] ∧
    ((⟨0, ⟨0, 0⟩⟩ : INpcPathPoint).time < 5 ∧
      (⟨0, ⟨0, 0⟩⟩ : INpcPathPoint) ∈ cxOrigPath) :=
  ⟨by decide, by decide, by decide⟩

/-- Witness for C8: the amended splice theorem applied to the two-point
sorted path. -/
theorem getStateNpcPath_splice_witness :
    cxOrigPath.Pairwise (fun a b => a.time ≤ b.time) ∧
    ((∀ (npc : INpc) (now : Int) (p0 : INpcPathPoint) (pr : List INpcPathPoint),
        npc.path = p0 :: pr → ¬ now > p0.time →
        internalApplyPathToNpc npc now = npc) ∧
     (CellController.getStateNpcPath cxOrigPath [] 5 = [] ∨
      ∃ p ∈ cxOrigPath, p.time < 5 ∧
        CellController.getStateNpcPath cxOrigPath [] 5 =
          p :: (cxOrigPath.filter (fun q => decide (q.time ≥ 5)) ++ []))) := by
  refine ⟨?_, ?_⟩
  · decide
  · exact getStateNpcPath_splice cxOrigPath [] 5 (by decide)

/-! ## Helper lemmas: the harvest spawner -/

lemma make_ok_inv (algorithm : String → AleaStream) (resource : IResource)
    (ctrl : HarvestResourceController)
    (hmake : HarvestResourceController.make algorithm resource = .ok ctrl) :
    ctrl =
      { postData := ⟨resource.id⟩
        rng := HarvestResourceController.initialRng algorithm resource
        sumCumulativeProbability :=
          resource.spawns.foldl (fun acc s => acc + s.probability) 0
        spawnsCumulativeProbability :=
          (resource.spawns.mapIdx (fun index s =>
            { s with
              probability :=
                (resource.spawns.take index).foldl
                  (fun acc s1 => acc + s1.probability) 0 })).reverse
        resource := resource } := by
  unfold HarvestResourceController.make at hmake
  split at hmake
  · cases hmake
  · rw [Except.ok.injEq] at hmake
    exact hmake.symm

lemma spawn_fields (c : HarvestResourceController) (now : Int)
    (r : IHarvestResourceSpawn) (c' : HarvestResourceController)
    (h : c.spawn now = some (r, c')) :
    c'.sumCumulativeProbability = c.sumCumulativeProbability ∧
    c'.spawnsCumulativeProbability = c.spawnsCumulativeProbability ∧
    c'.resource = c.resource := by
  unfold HarvestResourceController.spawn at h
  dsimp only [AleaPrng.quick, AleaPrng.int32] at h
  split at h
  · cases h
  · rw [Option.some.injEq, Prod.mk.injEq] at h
    rw [← h.2]
    exact ⟨rfl, rfl, rfl⟩

lemma spawnN_fields :
    ∀ (nows : List Int) (c c' : HarvestResourceController),
      (c.spawnN nows).2 = some c' →
      c'.sumCumulativeProbability = c.sumCumulativeProbability ∧
      c'.spawnsCumulativeProbability = c.spawnsCumulativeProbability ∧
      c'.resource = c.resource := by
  intro nows
  induction nows with
  | nil =>
    intro c c' h
    unfold HarvestResourceController.spawnN at h
    rw [Option.some.injEq] at h
    rw [← h]
    exact ⟨rfl, rfl, rfl⟩
  | cons n rest ih =>
    intro c c' h
    unfold HarvestResourceController.spawnN at h
    cases hs : c.spawn n with
    | none => rw [hs] at h; cases h
    | some rc =>
      rw [hs] at h
      have h' : (HarvestResourceController.spawnN rc.2 rest).2 = some c' := h
      have hf := spawn_fields c n rc.1 rc.2 (by rw [hs])
      have hrest := ih rc.2 c' h'
      exact ⟨hrest.1.trans hf.1, hrest.2.1.trans hf.2.1, hrest.2.2.trans hf.2.2⟩

lemma spawn_agree_step (c1 c2 : HarvestResourceController) (h : SpawnAgree c1 c2)
    (now1 now2 : Int) :
    (c1.spawn now1 = none ∧ c2.spawn now2 = none) ∨
    ∃ r1 c1' r2 c2',
      c1.spawn now1 = some (r1, c1') ∧ c2.spawn now2 = some (r2, c2') ∧
      r1.eraseLastUpdate = r2.eraseLastUpdate ∧ SpawnAgree c1' c2' := by
  obtain ⟨hrng, hsum, htab, hx, hy⟩ := h
  unfold HarvestResourceController.spawn
  dsimp only [AleaPrng.quick, AleaPrng.int32]
  rw [hrng, hsum, htab, hx, hy]
  split
  · exact Or.inl ⟨rfl, rfl⟩
  · exact Or.inr ⟨_, _, _, _, rfl, rfl, rfl, rfl, rfl, rfl, hx, hy⟩

lemma spawnN_agree :
    ∀ (nows1 nows2 : List Int), nows1.length = nows2.length →
      ∀ c1 c2, SpawnAgree c1 c2 →
      ((c1.spawnN nows1).1.map IHarvestResourceSpawn.eraseLastUpdate =
        (c2.spawnN nows2).1.map IHarvestResourceSpawn.eraseLastUpdate) ∧
      (((c1.spawnN nows1).2 = none ∧ (c2.spawnN nows2).2 = none) ∨
        ∃ c1' c2', (c1.spawnN nows1).2 = some c1' ∧ (c2.spawnN nows2).2 = some c2' ∧
          SpawnAgree c1' c2') := by
  intro nows1
  induction nows1 with
  | nil =>
    intro nows2 hlen c1 c2 h
    cases nows2 with
    | nil => exact ⟨rfl, Or.inr ⟨c1, c2, rfl, rfl, h⟩⟩
    | cons n2 rest2 => simp at hlen
  | cons n1 rest1 ih =>
    intro nows2 hlen c1 c2 h
    cases nows2 with
    | nil => simp at hlen
    | cons n2 rest2 =>
      have hlen' : rest1.length = rest2.length := by simpa using hlen
      rcases spawn_agree_step c1 c2 h n1 n2 with ⟨h1, h2⟩ |
        ⟨r1, c1', r2, c2', h1, h2, hr, hagree⟩
      · unfold HarvestResourceController.spawnN
        rw [h1, h2]
        exact ⟨rfl, Or.inl ⟨rfl, rfl⟩⟩
      · unfold HarvestResourceController.spawnN
        rw [h1, h2]
        obtain ⟨ihl, ihr⟩ := ih rest2 hlen' c1' c2' hagree
        refine ⟨?_, ?_⟩
        · show IHarvestResourceSpawn.eraseLastUpdate r1 ::
              ((c1'.spawnN rest1).1.map IHarvestResourceSpawn.eraseLastUpdate) =
            IHarvestResourceSpawn.eraseLastUpdate r2 ::
              ((c2'.spawnN rest2).1.map IHarvestResourceSpawn.eraseLastUpdate)
          rw [ihl, hr]
        · exact ihr

/-- C7. Harvest RNG resumability: construct a spawner from a resource, run
any prefix of `spawn()` calls, snapshot with `saveState()`, and construct a
second spawner from the resource carrying that snapshot as its `spawnState`.
For every list of further call instants (of equal length, wall clocks free to
differ), the two spawners produce identical spawn results — same types, ids,
positions and respawn times — up to the `lastUpdate` wall-clock field. -/
theorem harvest_rng_resumability (algorithm : String → AleaStream)
    (resource : IResource) (ctrl ctrlN ctrl2 : HarvestResourceController)
    (nows0 nows1 nows2 : List Int)
    (hmake : HarvestResourceController.make algorithm resource = .ok ctrl)
    (hrun : (ctrl.spawnN nows0).2 = some ctrlN)
    (hmake2 : HarvestResourceController.make algorithm
      { resource with spawnState := .saved ctrlN.saveState } = .ok ctrl2)
    (hlen : nows1.length = nows2.length) :
    (ctrl2.spawnN nows1).1.map IHarvestResourceSpawn.eraseLastUpdate =
      (ctrlN.spawnN nows2).1.map IHarvestResourceSpawn.eraseLastUpdate := by
  have hctrl := make_ok_inv algorithm resource ctrl hmake
  have hctrl2 := make_ok_inv algorithm _ ctrl2 hmake2
  have hfields := spawnN_fields nows0 ctrl ctrlN hrun
  have hagree : SpawnAgree ctrl2 ctrlN := by
    refine ⟨?_, ?_, ?_, ?_, ?_⟩
    · rw [hctrl2]
      rfl
    · rw [hctrl2, hfields.1, hctrl]
    · rw [hctrl2, hfields.2.1, hctrl]
    · rw [hctrl2, hfields.2.2, hctrl]
    · rw [hctrl2, hfields.2.2, hctrl]
  exact (spawnN_agree nows1 nows2 hlen ctrl2 ctrlN hagree).1

/-- Witness for C7: the one-entry STICK spawner, saved after zero spawns and
resumed, then run for two further spawns at differing wall clocks. -/
theorem harvest_rng_resumability_witness :
    HarvestResourceController.make constAlgorithm stickResource =
      .ok stickResourceCtrl ∧
    (stickResourceCtrl.spawnN []).2 = some stickResourceCtrl ∧
    HarvestResourceController.make constAlgorithm
      { stickResource with spawnState := .saved stickResourceCtrl.saveState } =
      .ok stickResourceCtrl2 ∧
    ([(5 : Int), 6].length = [(7 : Int), 8].length) ∧
    (stickResourceCtrl2.spawnN [5, 6]).1.map IHarvestResourceSpawn.eraseLastUpdate =
      (stickResourceCtrl.spawnN [7, 8]).1.map IHarvestResourceSpawn.eraseLastUpdate := by
  refine ⟨rfl, rfl, rfl, rfl, ?_⟩
  exact harvest_rng_resumability constAlgorithm stickResource stickResourceCtrl
    stickResourceCtrl stickResourceCtrl2 [] [5, 6] [7, 8] rfl rfl rfl rfl

/-! ## Helper lemmas: the spawn probability table -/

lemma foldl_add_shift :
    ∀ (l : List IResourceSpawn) (a : ℚ),
      l.foldl (fun x s => x + s.probability) a =
        a + l.foldl (fun x s => x + s.probability) 0 := by
  intro l
  induction l with
  | nil => intro a; simp
  | cons s rest ih =>
    intro a
    rw [List.foldl_cons, List.foldl_cons, ih, ih (0 + s.probability)]
    ring

lemma sumProb_append_single (s : IResourceSpawn) (l : List IResourceSpawn) :
    sumProb (l ++ [s]) = sumProb l + s.probability := by
  unfold sumProb
  rw [List.foldl_append]
  rfl

lemma cumAux_append_single (s : IResourceSpawn) :
    ∀ (l : List IResourceSpawn) (acc : ℚ),
      cumAux acc (l ++ [s]) =
        cumAux acc l ++ [{ s with probability := acc + sumProb l }] := by
  intro l
  induction l with
  | nil =>
    intro acc
    simp [cumAux, sumProb]
  | cons t rest ih =>
    intro acc
    show { t with probability := acc } :: cumAux (acc + t.probability) (rest ++ [s]) =
      ({ t with probability := acc } :: cumAux (acc + t.probability) rest) ++
        [{ s with probability := acc + sumProb (t :: rest) }]
    rw [ih]
    have hsum : acc + t.probability + sumProb rest = acc + sumProb (t :: rest) := by
      unfold sumProb
      rw [List.foldl_cons, foldl_add_shift rest (0 + t.probability)]
      ring
    rw [hsum]
    simp

lemma cumAux_eq_mapIdx :
    ∀ (l : List IResourceSpawn) (acc : ℚ),
      cumAux acc l =
        l.mapIdx (fun i s =>
          { s with
            probability :=
              acc + (l.take i).foldl (fun a t => a + t.probability) 0 }) := by
  intro l
  induction l with
  | nil => intro acc; rfl
  | cons s rest ih =>
    intro acc
    rw [List.mapIdx_cons]
    unfold cumAux
    congr 1
    · simp
    · rw [ih (acc + s.probability)]
      have hfun : (fun (i : Nat) (a : IResourceSpawn) =>
          { a with
            probability :=
              (acc + s.probability) +
                (rest.take i).foldl
                  (fun (x : ℚ) (t : IResourceSpawn) => x + t.probability) 0 }) =
          (fun (i : Nat) (a : IResourceSpawn) =>
          { a with
            probability :=
              acc + ((s :: rest).take (i + 1)).foldl
                (fun (x : ℚ) (t : IResourceSpawn) => x + t.probability) 0 }) := by
        funext i a
        have hfold : ((s :: rest).take (i + 1)).foldl
            (fun (x : ℚ) (t : IResourceSpawn) => x + t.probability) 0 =
            s.probability + (rest.take i).foldl
              (fun (x : ℚ) (t : IResourceSpawn) => x + t.probability) 0 := by
          rw [List.take_succ_cons, List.foldl_cons,
            foldl_add_shift (rest.take i) (0 + s.probability)]
          ring
        rw [hfold]
        rw [add_assoc]
      rw [hfun]

lemma table_eq_cumAux (l : List IResourceSpawn) :
    l.mapIdx (fun index s =>
      { s with
        probability :=
          (l.take index).foldl (fun acc s1 => acc + s1.probability) 0 }) =
      cumAux 0 l := by
  rw [cumAux_eq_mapIdx]
  simp

lemma cum_reverse_find (d : ℚ) :
    ∀ (l : List IResourceSpawn) (acc : ℚ),
      acc < d → d ≤ acc + sumProb l →
      ∃ s ∈ l, 0 < s.probability ∧ ∃ cLow,
        (cumAux acc l).reverse.find? (fun t => decide (t.probability < d)) =
          some { s with probability := cLow } ∧ cLow < d := by
  intro l
  induction l using List.reverseRecOn with
  | nil =>
    intro acc h1 h2
    exfalso
    unfold sumProb at h2
    simp at h2
    linarith
  | append_singleton l' s ih =>
    intro acc h1 h2
    rw [cumAux_append_single, List.reverse_append, List.reverse_singleton,
      List.singleton_append]
    by_cases hcase : acc + sumProb l' < d
    · refine ⟨s, by simp, ?_, acc + sumProb l', ?_, hcase⟩
      · rw [sumProb_append_single] at h2
        linarith
      · rw [List.find?_cons_of_pos _ (by simp [hcase])]
    · rw [List.find?_cons_of_neg _ (by simp [hcase])]
      have h2' : d ≤ acc + sumProb l' := not_lt.mp hcase
      obtain ⟨t, htmem, htpos, cl, hfind, hcl⟩ := ih acc h1 h2'
      exact ⟨t, by simp [htmem], htpos, cl, hfind, hcl⟩

lemma spawn_isSome (c : HarvestResourceController) (now : Int)
    (h : (c.spawnsCumulativeProbability.find?
      (fun t => decide (t.probability <
        c.rng.stream.quickVal c.rng.pos * c.sumCumulativeProbability))).isSome = true) :
    (c.spawn now).isSome = true := by
  unfold HarvestResourceController.spawn
  dsimp only [AleaPrng.quick, AleaPrng.int32]
  split
  · next hnone =>
      rw [hnone] at h
      simp at h
  · rfl

/-- C6 (amended). For a resource whose spawn table has positive total
probability mass and a uniform draw strictly between 0 and 1, `spawn()`
always selects an entry: the `find` over the reversed cumulative table fires,
the selected entry is one of the resource's spawn entries and has strictly
positive probability (zero-probability entries are never selected), and the
undefined-dereference branch is not taken. (For a draw of exactly 0 — a
legal value of a uniform draw in [0,1) — the find never fires and the crash
branch is reached: `harvest_spawn_zero_draw_crashes`.) -/
theorem harvest_spawn_selects (algorithm : String → AleaStream)
    (resource : IResource) (ctrl : HarvestResourceController) (now : Int)
    (hmake : HarvestResourceController.make algorithm resource = .ok ctrl)
    (hsum : 0 < sumProb resource.spawns)
    (hq0 : 0 < ctrl.rng.stream.quickVal ctrl.rng.pos)
    (hq1 : ctrl.rng.stream.quickVal ctrl.rng.pos < 1) :
    ∃ s ∈ resource.spawns, 0 < s.probability ∧ ∃ cLow,
      ctrl.spawnsCumulativeProbability.find?
        (fun t => decide (t.probability <
          ctrl.rng.stream.quickVal ctrl.rng.pos * ctrl.sumCumulativeProbability)) =
        some { s with probability := cLow } ∧
      (ctrl.spawn now).isSome = true := by
  have hctrl := make_ok_inv algorithm resource ctrl hmake
  have htab2 : ctrl.spawnsCumulativeProbability = (cumAux 0 resource.spawns).reverse := by
    rw [hctrl]
    dsimp only
    rw [table_eq_cumAux]
  have hsum2 : ctrl.sumCumulativeProbability = sumProb resource.spawns := by
    rw [hctrl]
    rfl
  have h0d : (0 : ℚ) <
      ctrl.rng.stream.quickVal ctrl.rng.pos * sumProb resource.spawns :=
    mul_pos hq0 hsum
  have hds : ctrl.rng.stream.quickVal ctrl.rng.pos * sumProb resource.spawns ≤
      0 + sumProb resource.spawns := by
    rw [zero_add]
    exact le_of_lt (mul_lt_of_lt_one_left hsum hq1)
  obtain ⟨s, hmem, hpos, cLow, hfind, hclow⟩ :=
    cum_reverse_find _ resource.spawns 0 h0d hds
  refine ⟨s, hmem, hpos, cLow, ?_, ?_⟩
  · rw [htab2, hsum2]
    exact hfind
  · refine spawn_isSome ctrl now ?_
    rw [htab2, hsum2, hfind]
    rfl

/-- Counterexample to the original C6 reading: on the weight-1 STICK node,
a draw of exactly 0 (a legal uniform value in [0,1)) makes the strict
comparison `probability < 0` fail on every cumulative entry, so the find
never fires and `spawn()` reaches the undefined-dereference branch. -/
theorem harvest_spawn_zero_draw_crashes :
    HarvestResourceController.make zeroAlgorithm stickResource =
      .ok { stickResourceCtrl with rng := ⟨zeroStream, 0⟩ } ∧
    HarvestResourceController.spawn
      { stickResourceCtrl with rng := ⟨zeroStream, 0⟩ } 0 = none := by
  constructor
  · rfl
  · unfold HarvestResourceController.spawn
    dsimp only [AleaPrng.quick, stickResourceCtrl, zeroStream]
    have hfind : List.find?
        (fun t => decide (t.probability < (0 : ℚ) * (0 + 1)))
        [({ type := .STICK, probability := 0, spawnTime := 1000 } : IResourceSpawn)] =
        none := by
      rw [List.find?_cons_of_neg _ (by norm_num), List.find?_nil]
    rw [hfind]

/-- Witness for C6: the weight-1 STICK node with the constant-1/2 stream. -/
theorem harvest_spawn_selects_witness :
    HarvestResourceController.make constAlgorithm stickResource =
      .ok stickResourceCtrl ∧
    0 < sumProb stickResource.spawns ∧
    0 < stickResourceCtrl.rng.stream.quickVal stickResourceCtrl.rng.pos ∧
    stickResourceCtrl.rng.stream.quickVal stickResourceCtrl.rng.pos < 1 ∧
    (∃ s ∈ stickResource.spawns, 0 < s.probability ∧ ∃ cLow,
      stickResourceCtrl.spawnsCumulativeProbability.find?
        (fun t => decide (t.probability <
          stickResourceCtrl.rng.stream.quickVal stickResourceCtrl.rng.pos *
            stickResourceCtrl.sumCumulativeProbability)) =
        some { s with probability := cLow } ∧
      (stickResourceCtrl.spawn 0).isSome = true) := by
  refine ⟨rfl, ?_, ?_, ?_, ?_⟩
  · norm_num [sumProb, stickResource, List.foldl_cons, List.foldl_nil]
  · show (0 : ℚ) < 1 / 2
    norm_num
  · show (1 : ℚ) / 2 < 1
    norm_num
  · exact harvest_spawn_selects constAlgorithm stickResource stickResourceCtrl 0
      rfl (by norm_num [sumProb, stickResource, List.foldl_cons, List.foldl_nil])
      (by show (0 : ℚ) < 1 / 2; norm_num)
      (by show (1 : ℚ) / 2 < 1; norm_num)

end PersonsGame
